import Mathlib

/-!
Verification development for the Bash lexer (`LexBash.cxx`) of this
repository: a shallow embedding of `ColouriseBashDoc`, `FoldBashDoc`,
`GlobScan`, `getBashNumberBase`, `translateBashDigit` and the
`HereDocCls` / `QuoteCls` / `QuoteStackCls` sub-machines, together with
theorems about the embedded code.

Documents are lists of byte values (`List Nat`).  The style cursor
(Scintilla's `StyleContext`, whose header is not part of the analysed
sources) is modelled from the spec's Style Cursor description with the
standard semantics: a forward-only position, a pending style run, and
commits of style-tagged runs; out-of-range reads yield 0 for relative
accesses and the next-character read past the end of the document
yields a space, mirroring the accessor's defaults.
-/

set_option maxRecDepth 40000

namespace LexBash

/-- Shell style constants (values from SciLexer.h). -/
abbrev SCE_SH_DEFAULT : Nat := 0

abbrev SCE_SH_ERROR : Nat := 1

abbrev SCE_SH_COMMENTLINE : Nat := 2

abbrev SCE_SH_NUMBER : Nat := 3

abbrev SCE_SH_WORD : Nat := 4

abbrev SCE_SH_STRING : Nat := 5

abbrev SCE_SH_CHARACTER : Nat := 6

abbrev SCE_SH_OPERATOR : Nat := 7

abbrev SCE_SH_IDENTIFIER : Nat := 8

abbrev SCE_SH_SCALAR : Nat := 9

abbrev SCE_SH_PARAM : Nat := 10

abbrev SCE_SH_BACKTICKS : Nat := 11

abbrev SCE_SH_HERE_DELIM : Nat := 12

abbrev SCE_SH_HERE_Q : Nat := 13

/-- Maximum size of the here-doc delimiter buffer (`HERE_DELIM_MAX`). -/
abbrev HERE_DELIM_MAX : Nat := 256

/-- Number-base sentinels (`BASH_BASE_ERROR` and friends); `PEDANTIC_OCTAL`
is `#undef`-ed in the source so the octal sentinels are absent. -/
abbrev BASH_BASE_ERROR : Int := 65

abbrev BASH_BASE_DECIMAL : Int := 66

abbrev BASH_BASE_HEX : Int := 67

/-- Command-segment state constants (`BASH_CMD_*`). -/
abbrev BASH_CMD_BODY : Nat := 0

abbrev BASH_CMD_START : Nat := 1

abbrev BASH_CMD_WORD : Nat := 2

abbrev BASH_CMD_TEST : Nat := 3

abbrev BASH_CMD_ARITH : Nat := 4

abbrev BASH_CMD_DELIM : Nat := 5

/-- Nested delimiter style constants (`BASH_DELIM_*`). -/
abbrev BASH_DELIM_LITERAL : Nat := 0

abbrev BASH_DELIM_STRING : Nat := 1

abbrev BASH_DELIM_CSTRING : Nat := 2

abbrev BASH_DELIM_LSTRING : Nat := 3

abbrev BASH_DELIM_COMMAND : Nat := 4

abbrev BASH_DELIM_BACKTICK : Nat := 5

/-- Maximum depth of the nesting quote stack (`BASH_DELIM_STACK_MAX`). -/
abbrev BASH_DELIM_STACK_MAX : Nat := 7

/-- Character read with default 0 (the accessor's `GetRelative` default). -/
def chAt (d : List Nat) (i : Nat) : Nat := d.getD i 0

/-- Relative character read at a possibly negative position. -/
def chAtI (d : List Nat) (i : Int) : Nat :=
  if i < 0 then 0 else chAt d i.toNat

/-- IsASpace from CharacterSet.h: space or one of the 0x09..0x0d controls. -/
def IsASpace (c : Nat) : Bool := c == 32 || (9 ≤ c && c ≤ 13)

def IsADigit (c : Nat) : Bool := 48 ≤ c && c ≤ 57

def IsHexDigit (c : Nat) : Bool :=
  IsADigit c || (97 ≤ c && c ≤ 102) || (65 ≤ c && c ≤ 70)

def IsUpperCase (c : Nat) : Bool := 65 ≤ c && c ≤ 90

def isAlphaCh (c : Nat) : Bool := (97 ≤ c && c ≤ 122) || (65 ≤ c && c ≤ 90)

def isAlnumCh (c : Nat) : Bool := isAlphaCh c || IsADigit c

/-- setWordStart: letters plus underscore. -/
def setWordStart (c : Nat) : Bool := isAlphaCh c || c == 95

/-- setWord: alphanumerics plus the characters of the string "._+-". -/
def setWord (c : Nat) : Bool :=
  isAlnumCh c || c == 46 || c == 95 || c == 43 || c == 45

/-- setMetaCharacter: the characters of the string made of pipe, ampersand,
semicolon, parentheses, angle brackets, space, tab, CR, LF, plus NUL. -/
def setMetaCharacter (c : Nat) : Bool :=
  c == 124 || c == 38 || c == 59 || c == 40 || c == 41 || c == 60 ||
  c == 62 || c == 32 || c == 9 || c == 13 || c == 10 || c == 0

/-- setBashOperator: the operator characters listed in the source. -/
def setBashOperator (c : Nat) : Bool :=
  c == 94 || c == 38 || c == 37 || c == 40 || c == 41 || c == 45 ||
  c == 43 || c == 61 || c == 124 || c == 123 || c == 125 || c == 91 ||
  c == 93 || c == 58 || c == 59 || c == 62 || c == 44 || c == 42 ||
  c == 60 || c == 63 || c == 33 || c == 46 || c == 126 || c == 64

/-- setSingleCharOp: the one-letter file test operator characters. -/
def setSingleCharOp (c : Nat) : Bool :=
  c == 114 || c == 119 || c == 120 || c == 111 || c == 82 || c == 87 ||
  c == 88 || c == 79 || c == 101 || c == 122 || c == 115 || c == 102 ||
  c == 100 || c == 108 || c == 112 || c == 83 || c == 98 || c == 99 ||
  c == 116 || c == 117 || c == 103 || c == 107 || c == 84 || c == 66 ||
  c == 77 || c == 65 || c == 67 || c == 97 || c == 104 || c == 71 ||
  c == 76 || c == 78 || c == 110

/-- setParam: alphanumerics plus dollar and underscore. -/
def setParam (c : Nat) : Bool := isAlnumCh c || c == 36 || c == 95

/-- setHereDoc: letters plus underscore, backslash, and the punctuation
characters listed in the source. -/
def setHereDoc (c : Nat) : Bool :=
  isAlphaCh c || c == 95 || c == 92 || c == 45 || c == 43 || c == 33 ||
  c == 37 || c == 42 || c == 44 || c == 46 || c == 47 || c == 58 ||
  c == 63 || c == 64 || c == 91 || c == 93 || c == 94 || c == 96 ||
  c == 123 || c == 125 || c == 126

/-- setHereDoc2: alphanumerics plus underscore and the punctuation
characters listed in the source (no backslash, with equals). -/
def setHereDoc2 (c : Nat) : Bool :=
  isAlnumCh c || c == 95 || c == 45 || c == 43 || c == 33 || c == 37 ||
  c == 42 || c == 44 || c == 46 || c == 47 || c == 58 || c == 61 ||
  c == 63 || c == 64 || c == 91 || c == 93 || c == 94 || c == 96 ||
  c == 123 || c == 125 || c == 126

/-- setLeftShift: digits plus dollar. -/
def setLeftShift (c : Nat) : Bool := IsADigit c || c == 36

/-- Word list "| || |& & && ; ;; ( ) { }" (command delimiters). -/
def cmdDelimiter : List (List Nat) :=
  [[124], [124, 124], [124, 38], [38], [38, 38], [59], [59, 59],
   [40], [41], [123], [125]]

/-- Word list "if elif fi while until else then do done esac eval". -/
def bashStruct : List (List Nat) :=
  [[105, 102], [101, 108, 105, 102], [102, 105],
   [119, 104, 105, 108, 101], [117, 110, 116, 105, 108],
   [101, 108, 115, 101], [116, 104, 101, 110], [100, 111],
   [100, 111, 110, 101], [101, 115, 97, 99], [101, 118, 97, 108]]

/-- Word list "for case select". -/
def bashStructIn : List (List Nat) :=
  [[102, 111, 114], [99, 97, 115, 101], [115, 101, 108, 101, 99, 116]]

/-- The token "in". -/
def tokIn : List Nat := [105, 110]

/-- The token "do". -/
def tokDo : List Nat := [100, 111]

/-- The token "test". -/
def tokTest : List Nat := [116, 101, 115, 116]

/-- The token "dnl". -/
def tokDnl : List Nat := [100, 110, 108]

/-- translateBashDigit: digit value of a numeral character. -/
def translateBashDigit (ch : Nat) : Int :=
  if 48 ≤ ch ∧ ch ≤ 57 then (ch : Int) - 48
  else if 97 ≤ ch ∧ ch ≤ 122 then (ch : Int) - 97 + 10
  else if 65 ≤ ch ∧ ch ≤ 90 then (ch : Int) - 65 + 36
  else if ch = 64 then 62
  else if ch = 95 then 63
  else BASH_BASE_ERROR

/-- The base*10+digit accumulation loop of getBashNumberBase. -/
def decAccum (s : List Nat) (acc : Int) : Int :=
  match s with
  | [] => acc
  | c :: rest => decAccum rest (acc * 10 + ((c : Int) - 48))

/-- getBashNumberBase: parse the base prefix of a DD#DDDD numeral; more
than two characters or a value above 64 give `BASH_BASE_ERROR`. -/
def getBashNumberBase (s : List Nat) : Int :=
  let base := decAccum s 0
  if base > 64 ∨ s.length > 2 then BASH_BASE_ERROR else base

/-- opposite: closing counterpart of an opening delimiter character. -/
def opposite (ch : Nat) : Nat :=
  if ch = 40 then 41
  else if ch = 91 then 93
  else if ch = 123 then 125
  else if ch = 60 then 62
  else ch

/-- Loop of GlobScan: `tl` is the document tail starting at relative
position `sLen` from the opening parenthesis, `pCount` the parenthesis
balance, `hash` the glob-qualifier marker state. -/
def globScanLoop : List Nat → Nat → Nat → Nat → Nat
  | [], _, _, _ => 0
  | c :: tl, sLen, pCount, hash =>
    if c = 0 then 0
    else if IsASpace c then 0
    else if c = 39 ∨ c = 34 then
      if hash ≠ 2 then 0 else globScanLoop tl (sLen + 1) pCount hash
    else if c = 35 ∧ hash = 0 then
      globScanLoop tl (sLen + 1) pCount (if sLen = 1 then 2 else 1)
    else if c = 40 then globScanLoop tl (sLen + 1) (pCount + 1) hash
    else if c = 41 then
      if pCount = 0 then (if hash ≠ 0 then sLen else 0)
      else globScanLoop tl (sLen + 1) (pCount - 1) hash
    else globScanLoop tl (sLen + 1) pCount hash

/-- GlobScan: forward scan for zsh globs from the position of an opening
parenthesis; returns 0 (not a glob) or the length of the glob span.
It is a pure function of the document: it takes no cursor state and
commits nothing. -/
def globScan (d : List Nat) (pos : Nat) : Nat :=
  globScanLoop (d.drop (pos + 1)) 1 0 0

/-- QuoteCls: the non-nesting quote pair tracker. -/
structure QuoteCls where
  Count : Int
  Up : Nat
  Down : Nat
deriving Repr, DecidableEq

def QuoteCls.initial : QuoteCls := ⟨0, 0, 0⟩

/-- QuoteCls::Open. -/
def QuoteCls.Open (q : QuoteCls) (u : Nat) : QuoteCls :=
  { Count := q.Count + 1, Up := u, Down := opposite u }

/-- QuoteCls::Start. -/
def QuoteCls.StartQ (q : QuoteCls) (u : Nat) : QuoteCls :=
  QuoteCls.Open { q with Count := 0 } u

/-- QuoteStackCls: the nesting quote stack.  The fixed `CountStack`,
`UpStack`, `StyleStack` arrays indexed by `Depth` are modelled by the
list of live saved frames, innermost first. -/
structure QuoteStackCls where
  Count : Int
  Up : Nat
  Down : Nat
  Style : Nat
  Depth : Nat
  frames : List (Int × Nat × Nat)
deriving Repr, DecidableEq

def QuoteStackCls.initial : QuoteStackCls := ⟨0, 0, 0, 0, 0, []⟩

/-- QuoteStackCls::Start. -/
def QuoteStackCls.StartQ (q : QuoteStackCls) (u s : Nat) : QuoteStackCls :=
  { q with Count := 1, Up := u, Down := opposite u, Style := s }

/-- QuoteStackCls::Push: refuses the push when `Depth` has reached
`BASH_DELIM_STACK_MAX`, otherwise saves the current frame. -/
def QuoteStackCls.Push (q : QuoteStackCls) (u s : Nat) : QuoteStackCls :=
  if q.Depth ≥ BASH_DELIM_STACK_MAX then q
  else
    { Count := 1, Up := u, Down := opposite u, Style := s,
      Depth := q.Depth + 1, frames := (q.Count, q.Up, q.Style) :: q.frames }

/-- QuoteStackCls::Pop: refuses the pop at depth 0, otherwise restores
the saved frame.  (When the frame list is empty although `Depth` is
positive — a state the lexer never reaches — the restored fields read
the zeroed storage.) -/
def QuoteStackCls.Pop (q : QuoteStackCls) : QuoteStackCls :=
  if q.Depth = 0 then q
  else
    match q.frames with
    | [] =>
      { Count := 0, Up := 0, Down := opposite 0, Style := 0,
        Depth := q.Depth - 1, frames := [] }
    | (c, u, s) :: tl =>
      { Count := c, Up := u, Down := opposite u, Style := s,
        Depth := q.Depth - 1, frames := tl }

/-- Operations performed on the quote stack during a lexing pass. -/
inductive QSOp where
  | startOp (u s : Nat)
  | pushOp (u s : Nat)
  | popOp
deriving Repr, DecidableEq

def applyQSOp (q : QuoteStackCls) : QSOp → QuoteStackCls
  | QSOp.startOp u s => q.StartQ u s
  | QSOp.pushOp u s => q.Push u s
  | QSOp.popOp => q.Pop

def applyQSOps (q : QuoteStackCls) (ops : List QSOp) : QuoteStackCls :=
  ops.foldl applyQSOp q

/-- Position `i` is the last position of its line: it holds an LF, a CR
not followed by LF, or is the last position of the document. -/
def atLineEnd (d : List Nat) (i : Nat) : Bool :=
  i + 1 ≥ d.length || chAt d i == 10 ||
  (chAt d i == 13 && chAt d (i + 1) != 10)

/-- Position `i` starts a line: it is position 0 or the previous
position holds a line break. -/
def atLineStart (d : List Nat) (i : Nat) : Bool :=
  i == 0 || chAt d (i - 1) == 10 ||
  (chAt d (i - 1) == 13 && chAt d i != 10)

/-- Position `i` holds a line break (an LF, or a CR not followed by LF). -/
def isLineBreakAt (d : List Nat) (i : Nat) : Bool :=
  chAt d i == 10 || (chAt d i == 13 && chAt d (i + 1) != 10)

/-- The accessor's GetLine: number of line breaks strictly before `pos`. -/
def lineOf (d : List Nat) (pos : Nat) : Nat :=
  ((List.range pos).filter (isLineBreakAt d)).length

/-- Scanning loop for `lineStartPos`. -/
def lineStartGo (d : List Nat) : Nat → Nat → Nat → Nat
  | 0, i, _ => i
  | _ + 1, i, 0 => i
  | fuel + 1, i, l + 1 =>
    if isLineBreakAt d i then lineStartGo d fuel (i + 1) l
    else lineStartGo d fuel (i + 1) (l + 1)

/-- The accessor's LineStart: first position of line `l`. -/
def lineStartPos (d : List Nat) (l : Nat) : Nat :=
  lineStartGo d d.length 0 l

/-- Pointwise update of the per-line state table. -/
def updLS (f : Nat → Nat) (k v : Nat) : Nat → Nat :=
  fun n => if n = k then v else f n

/-- Full state of one lexing pass of `ColouriseBashDoc`: the style
cursor (position, active style, pending-run start, committed styles),
the pass-local variables (`cmdState`, `cmdStateNew`, `testExprType`,
`numBase`), the `HereDoc`, `Quote` and `QuoteStack` sub-machines, and
the accessor's per-line state table. -/
structure St where
  pos : Nat
  style : Nat
  runStart : Nat
  passStart : Nat
  styles : List Nat
  cmdState : Nat
  cmdStateNew : Nat
  testExprType : Nat
  numBase : Int
  hdState : Nat
  hdQuote : Nat
  hdQuoted : Bool
  hdIndent : Bool
  hdDelim : List Nat
  quote : QuoteCls
  qs : QuoteStackCls
  lineStates : Nat → Nat

/-- Current character (`sc.ch`). -/
def scCh (d : List Nat) (st : St) : Nat := chAt d st.pos

/-- Next character (`sc.chNext`); past the document end the accessor's
default is a space. -/
def scChNext (d : List Nat) (st : St) : Nat :=
  if st.pos + 1 < d.length then chAt d (st.pos + 1) else 32

/-- Previous character (`sc.chPrev`); 0 before the document start. -/
def scChPrev (d : List Nat) (st : St) : Nat :=
  if st.pos = 0 then 0 else chAt d (st.pos - 1)

/-- Relative character read (`sc.GetRelative`), default 0 out of range. -/
def scRel (d : List Nat) (st : St) (n : Int) : Nat :=
  chAtI d ((st.pos : Int) + n)

/-- Commit the pending run with the current style and start a new run
with style `s` at the current position (`sc.SetState`). -/
def setState (st : St) (s : Nat) : St :=
  { st with
    styles := st.styles ++ List.replicate (st.pos - st.runStart) st.style,
    runStart := st.pos, style := s }

/-- Retag the pending run without moving (`sc.ChangeState`). -/
def changeState (st : St) (s : Nat) : St := { st with style := s }

/-- Advance one position (`sc.Forward`); at the end of the lexed range
the cursor does not move. -/
def fwd (d : List Nat) (st : St) : St :=
  if st.pos < d.length then { st with pos := st.pos + 1 } else st

/-- Advance `n` positions (`sc.Forward(n)`). -/
def fwdN (d : List Nat) (st : St) : Nat → St
  | 0 => st
  | n + 1 => fwdN d (fwd d st) n

/-- Advance then commit (`sc.ForwardSetState`). -/
def fwdSetState (d : List Nat) (st : St) (s : Nat) : St :=
  setState (fwd d st) s

/-- Flush the pending run (`sc.Complete`). -/
def completeSC (st : St) : St := setState st st.style

/-- Length of the pending run (`sc.LengthCurrent`). -/
def lengthCurrent (st : St) : Nat := st.pos - st.runStart

/-- Text of the pending run truncated to `maxLen - 1` characters
(`sc.GetCurrent(s, maxLen)`). -/
def getCurrentTok (d : List Nat) (st : St) (maxLen : Nat) : List Nat :=
  (d.drop st.runStart).take (min (st.pos - st.runStart) (maxLen - 1))

/-- Style committed for absolute document position `p` by a pass. -/
def styleAbs (st : St) (p : Nat) : Nat :=
  st.styles.getD (p - st.passStart) 255

/-- Per-line state update performed at `sc.atLineStart`: a line that
starts inside a string, backticks, single-quoted string, here-doc body,
continued comment or parameter expansion persists `BASH_CMD_BODY` to
force a backtrack; otherwise `cmdState` is reset to `BASH_CMD_START`
unless the previous line ended in a backslash continuation, and the
resulting `cmdState` is persisted. -/
def lineStartPhase (d : List Nat) (st : St) : St :=
  if atLineStart d st.pos then
    let ln := lineOf d st.pos
    if st.style = SCE_SH_STRING ∨ st.style = SCE_SH_BACKTICKS ∨
       st.style = SCE_SH_CHARACTER ∨ st.style = SCE_SH_HERE_Q ∨
       st.style = SCE_SH_COMMENTLINE ∨ st.style = SCE_SH_PARAM then
      { st with lineStates := updLS st.lineStates ln BASH_CMD_BODY }
    else
      let cont := (scRel d st (-3) = 92 ∧ scRel d st (-2) = 13 ∧
                   scChPrev d st = 10) ∨ scRel d st (-2) = 92
      let cmd := if ln > 0 ∧ ¬ cont then BASH_CMD_START else st.cmdState
      { st with cmdState := cmd, lineStates := updLS st.lineStates ln cmd }
  else st

/-- Switch case `SCE_SH_OPERATOR`. -/
def opCase (d : List Nat) (st : St) : St :=
  let st1 := setState st SCE_SH_DEFAULT
  if st.cmdState = BASH_CMD_DELIM then { st1 with cmdStateNew := BASH_CMD_START }
  else if scChPrev d st = 92 then { st1 with cmdStateNew := st.cmdState }
  else st1

/-- Keyword/identifier disambiguation chain for a completed word token
(the non-`BASH_CMD_WORD` part of case `SCE_SH_WORD`): result is the
token's style, the new `cmdStateNew`, and the new `testExprType`. -/
def bashWordClassify (kw : List (List Nat)) (cmdState : Nat) (s : List Nat)
    (kE : Bool) (cNI tE : Nat) : Nat × Nat × Nat :=
  if s = tokTest then
    if cmdState = BASH_CMD_START ∧ kE then (SCE_SH_WORD, BASH_CMD_TEST, 0)
    else (SCE_SH_IDENTIFIER, cNI, tE)
  else if bashStruct.contains s then
    if cmdState = BASH_CMD_START ∧ kE then (SCE_SH_WORD, BASH_CMD_START, tE)
    else (SCE_SH_IDENTIFIER, cNI, tE)
  else if bashStructIn.contains s then
    if cmdState = BASH_CMD_START ∧ kE then (SCE_SH_WORD, BASH_CMD_WORD, tE)
    else (SCE_SH_IDENTIFIER, cNI, tE)
  else if s.headD 0 = 45 then
    if cmdState ≠ BASH_CMD_TEST then (SCE_SH_IDENTIFIER, cNI, tE)
    else (SCE_SH_WORD, cNI, tE)
  else if cmdState ≠ BASH_CMD_START ∨ ¬ (kw.contains s ∧ kE) then
    (SCE_SH_IDENTIFIER, cNI, tE)
  else (SCE_SH_WORD, cNI, tE)

/-- Switch case `SCE_SH_WORD`. -/
def wordCase (kw : List (List Nat)) (d : List Nat) (st : St) : St :=
  let ch := scCh d st
  let chNext := scChNext d st
  if ¬ setWord ch ∨ (ch = 43 ∧ chNext = 61) then
    let s := getCurrentTok d st 512
    let kE := IsASpace ch || cmdDelimiter.contains [ch]
    if st.cmdState = BASH_CMD_WORD then
      if s = tokIn ∧ kE then
        setState { st with cmdStateNew := BASH_CMD_BODY } SCE_SH_DEFAULT
      else if s = tokDo ∧ kE then
        setState { st with cmdStateNew := BASH_CMD_START } SCE_SH_DEFAULT
      else setState (changeState st SCE_SH_IDENTIFIER) SCE_SH_DEFAULT
    else
      let r := bashWordClassify kw st.cmdState s kE st.cmdStateNew st.testExprType
      let tokStyle := r.1
      let cNew := r.2.1
      let tNew := r.2.2
      let st1 := { (changeState st tokStyle) with
        cmdStateNew := cNew
        testExprType := tNew }
      if s = tokDnl then
        let st2 := changeState st1 SCE_SH_COMMENTLINE
        if atLineEnd d st2.pos then setState st2 SCE_SH_DEFAULT else st2
      else
        setState st1 (if ch = 43 ∧ chNext = 61 then SCE_SH_OPERATOR
                      else SCE_SH_DEFAULT)
  else st

/-- Switch case `SCE_SH_IDENTIFIER`. -/
def identCase (d : List Nat) (st : St) : St :=
  if scChPrev d st = 92 then fwdSetState d st SCE_SH_DEFAULT
  else if ¬ setWord (scCh d st) then setState st SCE_SH_DEFAULT
  else if st.cmdState = BASH_CMD_ARITH ∧ ¬ setWordStart (scCh d st) then
    setState st SCE_SH_DEFAULT
  else st

/-- One character of number-literal scanning: given the active base, the
character, and the token text so far, returns the new base and whether
the numeral continues (`break` in the source) or ends (fallthrough). -/
def numberStep (numBase : Int) (ch : Nat) (tok : List Nat) : Int × Bool :=
  let digit := translateBashDigit ch
  if numBase = BASH_BASE_DECIMAL then
    if ch = 35 then
      let nb := getBashNumberBase tok
      if nb = BASH_BASE_ERROR then (nb, false) else (nb, true)
    else if IsADigit ch then (numBase, true)
    else (numBase, false)
  else if numBase = BASH_BASE_HEX then
    if IsHexDigit ch then (numBase, true) else (numBase, false)
  else if numBase = BASH_BASE_ERROR then
    if digit ≤ 9 then (numBase, true) else (numBase, false)
  else
    if digit ≠ BASH_BASE_ERROR then
      let digit2 := if numBase ≤ 36 ∧ digit ≥ 36 then digit - 26 else digit
      if digit2 < numBase then (numBase, true)
      else if digit2 ≤ 9 then (BASH_BASE_ERROR, true)
      else (numBase, false)
    else (numBase, false)

/-- Digit value after the case fold performed for bases up to 36
(letter values 36..61 fold down by 26, as in the source's
`if (digit >= 36) digit -= 26` under `numBase <= 36`). -/
def foldedDigit (nb : Int) (ch : Nat) : Int :=
  if nb ≤ 36 ∧ translateBashDigit ch ≥ 36 then translateBashDigit ch - 26
  else translateBashDigit ch

/-- Switch case `SCE_SH_NUMBER`. -/
def numberCase (d : List Nat) (st : St) : St :=
  let r := numberStep st.numBase (scCh d st) (getCurrentTok d st 10)
  if r.2 then { st with numBase := r.1 }
  else
    let st1 := { st with numBase := r.1 }
    let st2 := if r.1 = BASH_BASE_ERROR then changeState st1 SCE_SH_ERROR else st1
    setState st2 SCE_SH_DEFAULT

/-- Switch case `SCE_SH_COMMENTLINE`. -/
def commentCase (d : List Nat) (st : St) : St :=
  if atLineEnd d st.pos ∧ scChPrev d st ≠ 92 then setState st SCE_SH_DEFAULT
  else st

/-- Here-doc announcement handling (`HereDoc.State == 0`). -/
def hereDelimAnnounce (d : List Nat) (st0 : St) : St :=
  let cn := scChNext d st0
  let st := { st0 with hdQuote := cn, hdQuoted := false, hdDelim := [] }
  if cn = 39 ∨ cn = 34 then { fwd d st with hdQuoted := true, hdState := 1 }
  else if setHereDoc cn ∨ (cn = 61 ∧ st.cmdState ≠ BASH_CMD_ARITH) then
    { st with hdState := 1 }
  else if cn = 60 then fwdSetState d (fwd d st) SCE_SH_DEFAULT
  else if IsASpace cn then st
  else if setLeftShift cn ∨ (cn = 61 ∧ st.cmdState = BASH_CMD_ARITH) then
    fwdSetState d (changeState st SCE_SH_OPERATOR) SCE_SH_DEFAULT
  else { st with hdState := 1 }

/-- HereDocCls::Append: append one character to the delimiter buffer. -/
def hdAppend (st : St) (ch : Nat) : St :=
  { st with hdDelim := st.hdDelim ++ [ch] }

/-- Error transition taken when the delimiter buffer is full ("force
blowup"): switch to the Error style and reset the here-doc phase. -/
def hdOverflow (st : St) : St :=
  { setState st SCE_SH_ERROR with hdState := 0 }

/-- Here-doc delimiter collection (`HereDoc.State == 1`), including the
buffer-overflow check. -/
def hereDelimCollect (d : List Nat) (st : St) : St :=
  let ch := scCh d st
  let cp := scChPrev d st
  let cn := scChNext d st
  let q := st.hdQuote
  let st1 :=
    if (q = 39 ∧ ch ≠ q) ∨ (st.hdQuoted ∧ ch ≠ q ∧ ch ≠ 92) ∨
       (q ≠ 39 ∧ cp = 92) ∨ setHereDoc2 ch then hdAppend st ch
    else if st.hdQuoted ∧ ch = q then fwdSetState d st SCE_SH_DEFAULT
    else if ch = 92 then
      if st.hdQuoted ∧ cn ≠ q ∧ cn ≠ 92 then hdAppend st ch else st
    else if ¬ st.hdQuoted then setState st SCE_SH_DEFAULT
    else st
  if st1.hdDelim.length ≥ HERE_DELIM_MAX - 1 then hdOverflow st1
  else st1

/-- Switch case `SCE_SH_HERE_DELIM`. -/
def hereDelimCase (d : List Nat) (st : St) : St :=
  if st.hdState = 0 then hereDelimAnnounce d st
  else if st.hdState = 1 then hereDelimCollect d st
  else st

/-- The tabulation-prefix loop of the here-doc body line handler. -/
def eatTabs (d : List Nat) : Nat → St → Nat → St × Nat
  | 0, st, n => (st, n)
  | fuel + 1, st, n =>
    if scCh d st = 9 ∧ ¬ atLineEnd d st.pos then
      eatTabs d fuel (fwd d st) (n + 1)
    else (st, n)

/-- The advance-to-line-end loop of the here-doc body line handler. -/
def toLineEnd (d : List Nat) : Nat → St → St
  | 0, st => st
  | fuel + 1, st =>
    if ¬ atLineEnd d st.pos then toLineEnd d fuel (fwd d st) else st

/-- Switch case `SCE_SH_HERE_Q`: at each line start, strip a tab prefix,
read the whole line and compare it with the stored delimiter honoring
the `<<-` indentation rule. -/
def hereQCase (d : List Nat) (st : St) : St :=
  if atLineStart d st.pos then
    let st1 := setState st SCE_SH_HERE_Q
    let p := eatTabs d d.length st1 0
    let st2 := if p.2 > 0 then setState p.1 SCE_SH_HERE_Q else p.1
    let st3 := toLineEnd d d.length st2
    let s := getCurrentTok d st3 HERE_DELIM_MAX
    if lengthCurrent st3 = 0 then
      if (p.2 = 0 ∨ st3.hdIndent) ∧ st3.hdQuoted ∧ st3.hdDelim.length = 0 then
        setState st3 SCE_SH_DEFAULT
      else st3
    else
      let s2 := if s.getLast? = some 13 then s.dropLast else s
      if s2 = st3.hdDelim ∧ (p.2 = 0 ∨ (p.2 > 0 ∧ st3.hdIndent)) then
        setState st3 SCE_SH_DEFAULT
      else st3
  else st

/-- Switch case `SCE_SH_SCALAR`. -/
def scalarCase (d : List Nat) (st : St) : St :=
  if ¬ setParam (scCh d st) then
    if lengthCurrent st = 1 then fwdSetState d st SCE_SH_DEFAULT
    else setState st SCE_SH_DEFAULT
  else st

/-- Switch cases `SCE_SH_STRING` and `SCE_SH_BACKTICKS` (nesting). -/
def stringCase (d : List Nat) (st : St) : St :=
  let ch := scCh d st
  if ch = 92 ∧ st.qs.Up ≠ 92 then
    if st.qs.Style ≠ BASH_DELIM_LITERAL then fwd d st else st
  else if ch = st.qs.Down then
    let qs1 : QuoteStackCls := { st.qs with Count := st.qs.Count - 1 }
    if qs1.Count = 0 then
      if qs1.Depth > 0 then { st with qs := qs1.Pop }
      else fwdSetState d { st with qs := qs1 } SCE_SH_DEFAULT
    else { st with qs := qs1 }
  else if ch = st.qs.Up then
    { st with qs := { st.qs with Count := st.qs.Count + 1 } }
  else if st.qs.Style = BASH_DELIM_STRING ∨ st.qs.Style = BASH_DELIM_LSTRING then
    if ch = 96 then { st with qs := st.qs.Push 96 BASH_DELIM_BACKTICK }
    else if ch = 36 ∧ scChNext d st = 40 then
      let st1 := fwd d st
      { st1 with qs := st1.qs.Push (scCh d st1) BASH_DELIM_COMMAND }
    else st
  else if st.qs.Style = BASH_DELIM_COMMAND ∨ st.qs.Style = BASH_DELIM_BACKTICK then
    if ch = 39 then { st with qs := st.qs.Push 39 BASH_DELIM_LITERAL }
    else if ch = 34 then { st with qs := st.qs.Push 34 BASH_DELIM_STRING }
    else if ch = 96 then { st with qs := st.qs.Push 96 BASH_DELIM_BACKTICK }
    else if ch = 36 then
      let cn := scChNext d st
      if cn = 39 then
        let st1 := fwd d st
        { st1 with qs := st1.qs.Push (scCh d st1) BASH_DELIM_CSTRING }
      else if cn = 34 then
        let st1 := fwd d st
        { st1 with qs := st1.qs.Push (scCh d st1) BASH_DELIM_LSTRING }
      else if cn = 40 then
        let st1 := fwd d st
        { st1 with qs := st1.qs.Push (scCh d st1) BASH_DELIM_COMMAND }
      else st
    else st
  else st

/-- Switch case `SCE_SH_PARAM`. -/
def paramCase (d : List Nat) (st : St) : St :=
  let ch := scCh d st
  if ch = 92 ∧ st.quote.Up ≠ 92 then fwd d st
  else if ch = st.quote.Down then
    let q1 : QuoteCls := { st.quote with Count := st.quote.Count - 1 }
    if q1.Count = 0 then fwdSetState d { st with quote := q1 } SCE_SH_DEFAULT
    else { st with quote := q1 }
  else if ch = st.quote.Up then
    { st with quote := { st.quote with Count := st.quote.Count + 1 } }
  else st

/-- Switch case `SCE_SH_CHARACTER`. -/
def charCase (d : List Nat) (st : St) : St :=
  if scCh d st = st.quote.Down then
    let q1 : QuoteCls := { st.quote with Count := st.quote.Count - 1 }
    if q1.Count = 0 then fwdSetState d { st with quote := q1 } SCE_SH_DEFAULT
    else { st with quote := q1 }
  else st

/-- The state-termination switch. -/
def switchPhase (kw : List (List Nat)) (d : List Nat) (st : St) : St :=
  if st.style = SCE_SH_OPERATOR then opCase d st
  else if st.style = SCE_SH_WORD then wordCase kw d st
  else if st.style = SCE_SH_IDENTIFIER then identCase d st
  else if st.style = SCE_SH_NUMBER then numberCase d st
  else if st.style = SCE_SH_COMMENTLINE then commentCase d st
  else if st.style = SCE_SH_HERE_DELIM then hereDelimCase d st
  else if st.style = SCE_SH_HERE_Q then hereQCase d st
  else if st.style = SCE_SH_SCALAR then scalarCase d st
  else if st.style = SCE_SH_STRING ∨ st.style = SCE_SH_BACKTICKS then
    stringCase d st
  else if st.style = SCE_SH_PARAM then paramCase d st
  else if st.style = SCE_SH_CHARACTER then charCase d st
  else st

/-- Body of the end-of-line transition out of here-doc delimiter
collection: enter body scanning, or mark the span as an error when the
quoted delimiter was never closed or an unquoted delimiter is empty. -/
def hereDocEolCore (st : St) : St :=
  let st1 := { st with hdState := 2 }
  if st1.hdQuoted then
    if st1.style = SCE_SH_HERE_DELIM then
      setState (changeState st1 SCE_SH_ERROR) SCE_SH_DEFAULT
    else setState st1 SCE_SH_HERE_Q
  else if st1.hdDelim.length = 0 then
    setState (changeState st1 SCE_SH_ERROR) SCE_SH_DEFAULT
  else setState st1 SCE_SH_HERE_Q

/-- The end-of-line check after the switch (`HereDoc.State == 1` at a
line end). -/
def hereDocEol (d : List Nat) (st : St) : St :=
  if st.hdState = 1 ∧ atLineEnd d st.pos then hereDocEolCore st else st

/-- Two-character / one-character command-delimiter lookup; returns the
possibly advanced cursor and whether a delimiter token was found. -/
def cmdDelimCheck (d : List Nat) (st : St) : St × Bool :=
  let c1 := scCh d st
  let c2 := scChNext d st
  if setBashOperator c2 ∧ cmdDelimiter.contains [c1, c2] then (fwd d st, true)
  else (st, cmdDelimiter.contains [c1])

/-- Closing delimiters of test/arithmetic expressions. -/
def closingDelims (d : List Nat) (st : St) : St :=
  if st.cmdState = BASH_CMD_ARITH ∧ scCh d st = 41 ∧ scChNext d st = 41 then
    fwd d { st with cmdState := BASH_CMD_BODY }
  else if st.cmdState = BASH_CMD_TEST ∧ IsASpace (scChPrev d st) then
    if scCh d st = 93 ∧ scChNext d st = 93 ∧ st.testExprType = 1 then
      { fwd d st with cmdState := BASH_CMD_BODY }
    else if scCh d st = 93 ∧ st.testExprType = 2 then
      { st with cmdState := BASH_CMD_BODY }
    else st
  else st

/-- Operator entry from the default state:  glob disambiguation, opening
test/arithmetic delimiters, command delimiters, closing delimiters. -/
def operatorEntry (d : List Nat) (st0 : St) : St :=
  let ch := scCh d st0
  let chNext := scChNext d st0
  let sta := setState st0 SCE_SH_OPERATOR
  if sta.cmdState ≠ BASH_CMD_ARITH ∧ ch = 40 ∧ chNext ≠ 40 ∧
     globScan d sta.pos > 1 then
    fwdN d (setState sta SCE_SH_IDENTIFIER) (globScan d sta.pos)
  else
    let stb :=
      if sta.cmdState = BASH_CMD_START ∨ sta.cmdState = BASH_CMD_BODY then
        if ch = 40 ∧ chNext = 40 then fwd d { sta with cmdState := BASH_CMD_ARITH }
        else if ch = 91 ∧ chNext = 91 ∧ IsASpace (scRel d sta 2) then
          fwd d { sta with cmdState := BASH_CMD_TEST, testExprType := 1 }
        else if ch = 91 ∧ IsASpace chNext then
          { sta with cmdState := BASH_CMD_TEST, testExprType := 2 }
        else sta
      else sta
    if stb.cmdState = BASH_CMD_WORD ∧ scCh d stb = 40 ∧ scChNext d stb = 40 then
      fwd d { stb with cmdState := BASH_CMD_ARITH }
    else if stb.cmdState = BASH_CMD_START ∨ stb.cmdState = BASH_CMD_BODY ∨
            stb.cmdState = BASH_CMD_WORD ∨
            (stb.cmdState = BASH_CMD_TEST ∧ stb.testExprType = 0) then
      let r := cmdDelimCheck d stb
      if r.2 then { r.1 with cmdState := BASH_CMD_DELIM }
      else closingDelims d r.1
    else closingDelims d stb

/-- Hash entry from the default state: comment line or word, plus the
zsh features recognized in arithmetic expressions. -/
def hashEntry (d : List Nat) (stylePrev : Nat) (st : St) : St :=
  let st1 :=
    if stylePrev ≠ SCE_SH_WORD ∧ stylePrev ≠ SCE_SH_IDENTIFIER ∧
       (st.pos = 0 ∨ setMetaCharacter (scChPrev d st)) then
      setState st SCE_SH_COMMENTLINE
    else setState st SCE_SH_WORD
  if st1.cmdState = BASH_CMD_ARITH then
    if scChPrev d st1 = 91 then
      let st2 := setState st1 SCE_SH_WORD
      if scChNext d st2 = 35 then fwd d st2 else st2
    else if scCh d st1 = 35 ∧ scChNext d st1 = 35 ∧ scRel d st1 2 = 94 ∧
            IsUpperCase (scRel d st1 3) then
      fwdN d (setState st1 SCE_SH_IDENTIFIER) 3
    else if scChNext d st1 = 35 ∧ ¬ IsASpace (scRel d st1 2) then
      fwdN d (setState st1 SCE_SH_IDENTIFIER) 2
    else if setWordStart (scChNext d st1) then setState st1 SCE_SH_IDENTIFIER
    else st1
  else st1

/-- Dollar entry from the default state. -/
def dollarEntry (d : List Nat) (st : St) : St :=
  if scChNext d st = 40 ∨ scChNext d st = 91 then setState st SCE_SH_OPERATOR
  else
    let st1 := fwd d (setState st SCE_SH_SCALAR)
    let c := scCh d st1
    if c = 123 then
      { changeState st1 SCE_SH_PARAM with quote := st1.quote.StartQ 123 }
    else if c = 39 then
      { changeState st1 SCE_SH_STRING with
        qs := st1.qs.StartQ 39 BASH_DELIM_CSTRING }
    else if c = 34 then
      { changeState st1 SCE_SH_STRING with
        qs := st1.qs.StartQ 34 BASH_DELIM_LSTRING }
    else if c = 40 then
      { changeState st1 SCE_SH_BACKTICKS with
        qs := st1.qs.StartQ 40 BASH_DELIM_COMMAND }
    else if c = 96 then
      { changeState st1 SCE_SH_BACKTICKS with
        qs := st1.qs.StartQ 96 BASH_DELIM_BACKTICK }
    else st1

/-- Here-doc announcement from the default state (a `<<` match). -/
def heredocEntry (d : List Nat) (st : St) : St :=
  let st1 := { setState st SCE_SH_HERE_DELIM with hdState := 0 }
  if scRel d st1 2 = 45 then fwd d { st1 with hdIndent := true }
  else { st1 with hdIndent := false }

/-- Backslash entry from the default state: escaped literal, except
that a backslash before a line break stays in the default style. -/
def backslashEntry (d : List Nat) (st : St) : St :=
  let st1 := setState st SCE_SH_IDENTIFIER
  if scChNext d st = 13 ∨ scChNext d st = 10 then setState st1 SCE_SH_DEFAULT
  else st1

/-- Digit entry from the default state: decimal by default, hex for the
0x/0X prefix and (permissively) for a leading 0 followed by a digit. -/
def digitEntry (d : List Nat) (st : St) : St :=
  let st1 := { setState st SCE_SH_NUMBER with numBase := BASH_BASE_DECIMAL }
  if scCh d st = 48 then
    if scChNext d st = 120 ∨ scChNext d st = 88 then
      fwd d { st1 with numBase := BASH_BASE_HEX }
    else if IsADigit (scChNext d st) then { st1 with numBase := BASH_BASE_HEX }
    else st1
  else st1

/-- Double-quote entry from the default state. -/
def stringEntry (st : St) : St :=
  { setState st SCE_SH_STRING with qs := st.qs.StartQ 34 BASH_DELIM_STRING }

/-- Single-quote entry from the default state. -/
def charEntry (st : St) : St :=
  { setState st SCE_SH_CHARACTER with quote := st.quote.StartQ 39 }

/-- Backtick entry from the default state. -/
def backtickEntry (st : St) : St :=
  { setState st SCE_SH_BACKTICKS with qs := st.qs.StartQ 96 BASH_DELIM_BACKTICK }

/-- New-state entry from the default state. -/
def defaultPhase (d : List Nat) (stylePrev : Nat) (st : St) : St :=
  if st.style ≠ SCE_SH_DEFAULT then st
  else
    let ch := scCh d st
    let chNext := scChNext d st
    if ch = 92 then backslashEntry d st
    else if IsADigit ch then digitEntry d st
    else if setWordStart ch then setState st SCE_SH_WORD
    else if ch = 35 then hashEntry d stylePrev st
    else if ch = 34 then stringEntry st
    else if ch = 39 then charEntry st
    else if ch = 96 then backtickEntry st
    else if ch = 36 then dollarEntry d st
    else if ch = 60 ∧ chNext = 60 then heredocEntry d st
    else if ch = 45 ∧ setSingleCharOp chNext ∧ ¬ setWord (scRel d st 2) ∧
            IsASpace (scChPrev d st) then
      fwd d (setState st SCE_SH_WORD)
    else if setBashOperator ch then operatorEntry d st
    else st

/-- Initialization of `cmdStateNew` at the top of each iteration:
states BODY|TEST|ARITH persist until the end of a command segment,
state WORD persists, everything else defaults to BODY. -/
def cmdStateNewInit (st : St) : St :=
  { st with cmdStateNew :=
    if st.cmdState = BASH_CMD_TEST ∨ st.cmdState = BASH_CMD_ARITH ∨
       st.cmdState = BASH_CMD_WORD then st.cmdState else BASH_CMD_BODY }

/-- Commit of `cmdStateNew` into `cmdState` when a non-default style
run has just ended. -/
def cmdStateUpdatePhase (sp : Nat) (st : St) : St :=
  if sp ≠ SCE_SH_DEFAULT ∧ st.style = SCE_SH_DEFAULT then
    { st with cmdState := st.cmdStateNew }
  else st

/-- One iteration of the main lexing loop (without the driver's final
`sc.Forward`): line-state update, `cmdStateNew` initialization, the
state-termination switch, the here-doc end-of-line check, the
`cmdState` commit, and the new-state entry, in source order. -/
def bashIteration (kw : List (List Nat)) (d : List Nat) (st0 : St) : St :=
  let st2 := cmdStateNewInit (lineStartPhase d st0)
  defaultPhase d st2.style
    (cmdStateUpdatePhase st2.style (hereDocEol d (switchPhase kw d st2)))

/-- The main lexing loop, with fuel bounding the number of iterations. -/
def bashRun (kw : List (List Nat)) (d : List Nat) : Nat → St → St
  | 0, st => st
  | fuel + 1, st =>
    if st.pos < d.length then bashRun kw d fuel (fwd d (bashIteration kw d st))
    else st

/-- Fresh pass state starting at `startPos` over line-state table `ls`. -/
def initSt (startPos : Nat) (ls : Nat → Nat) : St :=
  { pos := startPos, style := SCE_SH_DEFAULT, runStart := startPos,
    passStart := startPos, styles := [], cmdState := BASH_CMD_START,
    cmdStateNew := 0, testExprType := 0, numBase := 0, hdState := 0,
    hdQuote := 0, hdQuoted := false, hdIndent := false, hdDelim := [],
    quote := QuoteCls.initial, qs := QuoteStackCls.initial, lineStates := ls }

/-- Backward walk of the restart-point resolver: the nearest line at or
below `ln` whose stored state is `BASH_CMD_START`, with line 0 as the
floor. -/
def resolveLn (ls : Nat → Nat) : Nat → Nat
  | 0 => 0
  | ln + 1 => if ls (ln + 1) = BASH_CMD_START then ln + 1 else resolveLn ls ln

/-- Start offset chosen by the restart-point resolver for an edit at
`startPos` (the backtracking prologue of `ColouriseBashDoc`). -/
def restartPos (d : List Nat) (ls : Nat → Nat) (startPos : Nat) : Nat :=
  let ln0 := lineOf d startPos
  let ln1 := if ln0 > 0 ∧ startPos = lineStartPos d ln0 then ln0 - 1 else ln0
  lineStartPos d (resolveLn ls ln1)

/-- ColouriseBashDoc: resolve the restart point for an edit at
`startPos`, then lex from there to the end of the document. -/
def colouriseBash (kw : List (List Nat)) (d : List Nat) (startPos : Nat)
    (ls : Nat → Nat) : St :=
  let s0 := restartPos d ls startPos
  completeSC (bashRun kw d (d.length + 1) (initSt s0 ls))

/-- Safety invariant of the here-doc delimiter buffer: while the
sub-machine is collecting a delimiter (`State == 1`), the stored length
is at most `HERE_DELIM_MAX - 2`, so an `Append` writes its character
and its terminating NUL at indices strictly below `HERE_DELIM_MAX`. -/
def DelimInv (st : St) : Prop :=
  st.hdState = 1 → st.hdDelim.length ≤ HERE_DELIM_MAX - 2

/-- The document consisting of the four lines "<<", " ", "'abc'", "X"
(separated by LF): a here-doc operator whose whitespace eating spans
the first two line breaks and whose quoted delimiter spans the third
line. -/
def c1doc : List Nat := [60, 60, 10, 32, 10, 39, 97, 98, 99, 39, 10, 88]

/-- Character read of the fold pass (`SafeGetCharAt`, default space). -/
def foldChAt (d : List Nat) (i : Nat) : Nat := d.getD i 32

/-- Per-line fold output of `FoldBashDoc`: the level number plus the
whitespace and header flags (the bit-packed `SC_FOLDLEVEL` word is
modelled as a record; the number is the `SC_FOLDLEVELNUMBERMASK` part). -/
structure FoldLev where
  num : Int
  white : Bool
  header : Bool
deriving Repr, DecidableEq

/-- One `SetLevel` emission of the fold pass at an end of line, paired
with the `visibleChars` counter at the moment of emission. -/
structure FoldEmit where
  line : Nat
  lev : FoldLev
  visible : Nat
deriving Repr, DecidableEq

/-- Pointwise update of the per-line fold level table. -/
def updFL (f : Nat → FoldLev) (k : Nat) (v : FoldLev) : Nat → FoldLev :=
  fun n => if n = k then v else f n

/-- State of the `FoldBashDoc` loop. -/
structure FoldSt where
  i : Nat
  lineCurrent : Nat
  levelPrev : Int
  levelCurrent : Int
  visibleChars : Nat
  skipHereCh : Nat
  word : List Nat
  levels : Nat → FoldLev
  emits : List FoldEmit

/-- Fold words "if foreach switch while" incrementing in csh mode. -/
def foldIncCsh : List (List Nat) :=
  [[105, 102], [102, 111, 114, 101, 97, 99, 104],
   [115, 119, 105, 116, 99, 104], [119, 104, 105, 108, 101]]

/-- Fold words "end endif endsw" decrementing in csh mode. -/
def foldDecCsh : List (List Nat) :=
  [[101, 110, 100], [101, 110, 100, 105, 102], [101, 110, 100, 115, 119]]

/-- Fold words "if case do" incrementing in bash mode. -/
def foldIncBash : List (List Nat) :=
  [[105, 102], [99, 97, 115, 101], [100, 111]]

/-- Fold words "fi esac done" decrementing in bash mode. -/
def foldDecBash : List (List Nat) :=
  [[102, 105], [101, 115, 97, 99], [100, 111, 110, 101]]

/-- Net effect of one fold-pass character on `levelCurrent`,
`skipHereCh` and the keyword buffer: comment folding, keyword folding,
operator folding and here-document folding, in source order.  `isCmt`
abstracts the `IsLexCommentLine` helper of the accessor (whose header
is not among the analysed sources); every theorem below holds for any
`isCmt`. -/
def foldAdjust (d : List Nat) (styleF : Nat → Nat) (isCmt : Int → Bool)
    (foldComment isCShell : Bool) (i lineCurrent : Nat)
    (lv0 : Int) (skip0 : Nat) (word0 : List Nat) : Int × Nat × List Nat :=
  let ch := foldChAt d i
  let chNext := foldChAt d (i + 1)
  let style := styleF i
  let styleNext := styleF (i + 1)
  let atEOL := (ch = 13 ∧ chNext ≠ 10) ∨ ch = 10
  let lv1 :=
    if foldComment ∧ atEOL ∧ isCmt (lineCurrent : Int) then
      if ¬ isCmt ((lineCurrent : Int) - 1) ∧ isCmt ((lineCurrent : Int) + 1) then
        lv0 + 1
      else if isCmt ((lineCurrent : Int) - 1) ∧
              ¬ isCmt ((lineCurrent : Int) + 1) then lv0 - 1
      else lv0
    else lv0
  let wordAndLv :=
    if style = SCE_SH_WORD then
      let w1 := if word0.length < 15 then word0 ++ [ch] else word0
      if styleNext ≠ SCE_SH_WORD then
        let lc :=
          if isCShell then
            if foldIncCsh.contains w1 then lv1 + 1
            else if foldDecCsh.contains w1 then lv1 - 1
            else lv1
          else
            if foldIncBash.contains w1 then lv1 + 1
            else if foldDecBash.contains w1 then lv1 - 1
            else lv1
        (([] : List Nat), lc)
      else (w1, lv1)
    else (word0, lv1)
  let lv2 := wordAndLv.2
  let lv3 :=
    if style = SCE_SH_OPERATOR then
      if ch = 123 ∨ ch = 91 then lv2 + 1
      else if ch = 125 ∨ ch = 93 then lv2 - 1
      else lv2
    else lv2
  let lvAndSkip :=
    if style = SCE_SH_HERE_DELIM then
      if ch = 60 ∧ chNext = 60 then
        if foldChAt d (i + 2) = 60 then (lv3, 1)
        else if skip0 = 0 then (lv3 + 1, skip0)
        else (lv3, 0)
      else (lv3, skip0)
    else if style = SCE_SH_HERE_Q ∧ styleNext = SCE_SH_DEFAULT then
      (lv3 - 1, skip0)
    else (lv3, skip0)
  (lvAndSkip.1, lvAndSkip.2, wordAndLv.1)

/-- One iteration of the `FoldBashDoc` loop. -/
def foldIteration (d : List Nat) (styleF : Nat → Nat) (isCmt : Int → Bool)
    (foldComment foldCompact isCShell : Bool) (st : FoldSt) : FoldSt :=
  let ch := foldChAt d st.i
  let chNext := foldChAt d (st.i + 1)
  let atEOL := (ch = 13 ∧ chNext ≠ 10) ∨ ch = 10
  let a := foldAdjust d styleF isCmt foldComment isCShell st.i st.lineCurrent
    st.levelCurrent st.skipHereCh st.word
  let vis := if ¬ IsASpace ch then st.visibleChars + 1 else st.visibleChars
  if atEOL then
    let lev : FoldLev :=
      { num := st.levelPrev
        white := (vis == 0) && foldCompact
        header := decide (a.1 > st.levelPrev) && decide (vis > 0) }
    { i := st.i + 1, lineCurrent := st.lineCurrent + 1, levelPrev := a.1,
      levelCurrent := a.1, visibleChars := 0, skipHereCh := a.2.1,
      word := a.2.2, levels := updFL st.levels st.lineCurrent lev,
      emits := st.emits ++ [⟨st.lineCurrent, lev, vis⟩] }
  else
    { i := st.i + 1, lineCurrent := st.lineCurrent, levelPrev := st.levelPrev,
      levelCurrent := a.1, visibleChars := vis, skipHereCh := a.2.1,
      word := a.2.2, levels := st.levels, emits := st.emits }

/-- The `FoldBashDoc` loop, with fuel bounding the iteration count. -/
def foldRun (d : List Nat) (styleF : Nat → Nat) (isCmt : Int → Bool)
    (foldComment foldCompact isCShell : Bool) (endPos : Nat) :
    Nat → FoldSt → FoldSt
  | 0, st => st
  | fuel + 1, st =>
    if st.i < endPos then
      foldRun d styleF isCmt foldComment foldCompact isCShell endPos fuel
        (foldIteration d styleF isCmt foldComment foldCompact isCShell st)
    else st

/-- Initial state of a fold pass starting at `startPos` over the
per-line level table `initLev`. -/
def foldInit (d : List Nat) (initLev : Nat → FoldLev) (startPos : Nat) :
    FoldSt :=
  { i := startPos, lineCurrent := lineOf d startPos,
    levelPrev := (initLev (lineOf d startPos)).num,
    levelCurrent := (initLev (lineOf d startPos)).num,
    visibleChars := 0, skipHereCh := 0, word := [], levels := initLev,
    emits := [] }

/-- FoldBashDoc over the region from `startPos` to the end of the
document, including the final fill-in of the next line's level. -/
def foldBash (d : List Nat) (styleF : Nat → Nat) (isCmt : Int → Bool)
    (foldComment foldCompact isCShell : Bool) (initLev : Nat → FoldLev)
    (startPos : Nat) : FoldSt :=
  let st := foldRun d styleF isCmt foldComment foldCompact isCShell d.length
    d.length (foldInit d initLev startPos)
  let lv : FoldLev :=
    { num := st.levelPrev
      white := (st.levels st.lineCurrent).white
      header := (st.levels st.lineCurrent).header }
  { st with levels := updFL st.levels st.lineCurrent lv }

/-- Invariant of the fold loop: every emitted line's header flag is the
comparison of the following line's level (held by the next emission,
or by `levelPrev` for the most recent emission) with the line's own
level, masked by the line's visible-character count; emitted lines are
consecutive and end right before `lineCurrent`. -/
def FoldInvCore (emits : List FoldEmit) (levelPrev : Int)
    (lineCurrent : Nat) : Prop :=
  (∀ j e1 e2, emits[j]? = some e1 → emits[j + 1]? = some e2 →
    e1.lev.header =
      (decide (e2.lev.num > e1.lev.num) && decide (e1.visible > 0)) ∧
    e2.line = e1.line + 1) ∧
  (∀ e, emits.getLast? = some e →
    e.lev.header =
      (decide (levelPrev > e.lev.num) && decide (e.visible > 0)) ∧
    e.line + 1 = lineCurrent)

/-! Theorems. -/

/-- One quote-stack operation preserves the depth bound. -/
lemma applyQSOp_depth (q : QuoteStackCls) (op : QSOp)
    (h : q.Depth ≤ BASH_DELIM_STACK_MAX) :
    (applyQSOp q op).Depth ≤ BASH_DELIM_STACK_MAX := by
  cases op with
  | startOp u s => simpa [applyQSOp, QuoteStackCls.StartQ] using h
  | pushOp u s =>
    by_cases hd : q.Depth ≥ BASH_DELIM_STACK_MAX
    · simp [applyQSOp, QuoteStackCls.Push, hd] <;> omega
    · simp [applyQSOp, QuoteStackCls.Push, hd] <;> omega
  | popOp =>
    by_cases hd : q.Depth = 0
    · simp [applyQSOp, QuoteStackCls.Pop, hd] <;> omega
    · cases hf : q.frames with
      | nil => simp [applyQSOp, QuoteStackCls.Pop, hd, hf] <;> omega
      | cons a tl =>
        obtain ⟨c, u, s⟩ := a
        simp [applyQSOp, QuoteStackCls.Pop, hd, hf] <;> omega

/-- A sequence of quote-stack operations preserves the depth bound. -/
lemma applyQSOps_depth (ops : List QSOp) :
    ∀ q : QuoteStackCls, q.Depth ≤ BASH_DELIM_STACK_MAX →
      (applyQSOps q ops).Depth ≤ BASH_DELIM_STACK_MAX := by
  induction ops with
  | nil => intro q h; exact h
  | cons op tl ih =>
    intro q h
    have : applyQSOps q (op :: tl) = applyQSOps (applyQSOp q op) tl := rfl
    rw [this]
    exact ih _ (applyQSOp_depth q op h)

/-- C5: for every sequence of Start/Push/Pop operations on the quote
stack starting from the initial state, the depth satisfies
0 ≤ Depth ≤ BASH_DELIM_STACK_MAX (the lower bound being inherent in the
Nat representation), and a Push attempted at the maximum depth leaves
the whole structure — saved frames, depth, and the current Count, Up,
Down, Style — completely unchanged, so no error style can arise from a
depth overflow. -/
theorem c5_quote_stack_bounded :
    (∀ ops : List QSOp,
      (applyQSOps QuoteStackCls.initial ops).Depth ≤ BASH_DELIM_STACK_MAX) ∧
    (∀ (q : QuoteStackCls) (u s : Nat), q.Depth = BASH_DELIM_STACK_MAX →
      q.Push u s = q) := by
  constructor
  · intro ops
    exact applyQSOps_depth ops QuoteStackCls.initial (by decide)
  · intro q u s h
    simp [QuoteStackCls.Push, h]

/-- Witness for C5 at concrete inputs. -/
theorem c5_witness :
    (applyQSOps QuoteStackCls.initial
      [QSOp.startOp 34 1, QSOp.pushOp 96 5, QSOp.popOp]).Depth ≤
      BASH_DELIM_STACK_MAX ∧
    QuoteStackCls.Push ⟨1, 40, 41, 4, BASH_DELIM_STACK_MAX, []⟩ 96 5 =
      ⟨1, 40, 41, 4, BASH_DELIM_STACK_MAX, []⟩ :=
  ⟨c5_quote_stack_bounded.1 _, c5_quote_stack_bounded.2 _ 96 5 rfl⟩

/-- C7: the glob disambiguation scan returns 0 (not a glob) whenever it
meets a whitespace character, whenever it meets a single or double
quote outside the qualifier case (`hash ≠ 2`), and whenever it meets a
closing parenthesis with no open parenthesis pending and no qualifier
marker seen; and `globScan` is the pure loop applied to the document
tail — it takes no cursor state and writes nothing. -/
theorem c7_glob_scan_aborts :
    (∀ (tl : List Nat) (c sLen pCount hash : Nat), IsASpace c = true →
      globScanLoop (c :: tl) sLen pCount hash = 0) ∧
    (∀ (tl : List Nat) (c sLen pCount hash : Nat), (c = 39 ∨ c = 34) →
      hash ≠ 2 → globScanLoop (c :: tl) sLen pCount hash = 0) ∧
    (∀ (tl : List Nat) (sLen pCount hash : Nat), pCount = 0 → hash = 0 →
      globScanLoop (41 :: tl) sLen pCount hash = 0) ∧
    (∀ (d : List Nat) (pos : Nat),
      globScan d pos = globScanLoop (d.drop (pos + 1)) 1 0 0) := by
  refine ⟨?_, ?_, ?_, ?_⟩
  · intro tl c sLen pCount hash hsp
    by_cases hc : c = 0
    · simp [globScanLoop, hc]
    · simp [globScanLoop, hc, hsp]
  · intro tl c sLen pCount hash hq hh
    rcases hq with rfl | rfl <;> simp [globScanLoop, IsASpace, hh]
  · intro tl sLen pCount hash hp hh
    subst hp; subst hh
    simp [globScanLoop, IsASpace]
  · intro d pos
    rfl

/-- Witness for C7 at concrete inputs. -/
theorem c7_witness :
    globScanLoop [32, 97] 3 1 1 = 0 ∧ globScanLoop [39] 2 0 0 = 0 ∧
    globScanLoop [41, 98] 4 0 0 = 0 :=
  ⟨c7_glob_scan_aborts.1 [97] 32 3 1 1 rfl,
   c7_glob_scan_aborts.2.1 [] 39 2 0 0 (Or.inl rfl) (by decide),
   c7_glob_scan_aborts.2.2.1 [98] 4 0 0 rfl rfl⟩

/-- C9: a line whose start position is reached with the style of a
multi-line construct (double-quoted string, backticks/command
substitution, single-quoted string, here-doc body, continued comment,
or parameter expansion) has `BASH_CMD_BODY` — never `BASH_CMD_START` —
persisted as its line state, and the restart-point resolver's backward
walk only ever returns a line other than 0 whose stored state is
`BASH_CMD_START`, so re-lexing never resumes at such a line. -/
theorem c9_multiline_body_state :
    (∀ (d : List Nat) (st : St), atLineStart d st.pos = true →
      (st.style = SCE_SH_STRING ∨ st.style = SCE_SH_BACKTICKS ∨
       st.style = SCE_SH_CHARACTER ∨ st.style = SCE_SH_HERE_Q ∨
       st.style = SCE_SH_COMMENTLINE ∨ st.style = SCE_SH_PARAM) →
      (lineStartPhase d st).lineStates (lineOf d st.pos) = BASH_CMD_BODY ∧
      BASH_CMD_BODY ≠ BASH_CMD_START) ∧
    (∀ (ls : Nat → Nat) (ln : Nat), resolveLn ls ln ≠ 0 →
      ls (resolveLn ls ln) = BASH_CMD_START) := by
  constructor
  · intro d st hls hsty
    refine ⟨?_, by decide⟩
    simp only [lineStartPhase, hls, if_true]
    rw [if_pos hsty]
    simp [updLS]
  · intro ls ln
    induction ln with
    | zero => intro h; simp [resolveLn] at h
    | succ n ih =>
      intro h
      by_cases hs : ls (n + 1) = BASH_CMD_START
      · simp [resolveLn, hs]
      · simp only [resolveLn, if_neg hs] at h ⊢
        exact ih h

/-- Witness for C9 at concrete inputs. -/
theorem c9_witness :
    (lineStartPhase [34, 10, 97]
        { initSt 0 (fun _ => 0) with pos := 2, style := SCE_SH_STRING
        }).lineStates (lineOf [34, 10, 97] 2) = BASH_CMD_BODY ∧
    (fun n => if n = 2 then BASH_CMD_START else BASH_CMD_BODY)
      (resolveLn (fun n => if n = 2 then BASH_CMD_START else BASH_CMD_BODY) 3)
      = BASH_CMD_START :=
  ⟨(c9_multiline_body_state.1 [34, 10, 97] _ (by decide) (Or.inl rfl)).1,
   c9_multiline_body_state.2
     (fun n => if n = 2 then BASH_CMD_START else BASH_CMD_BODY) 3 (by decide)⟩

/-- C2: at end of line during here-doc delimiter collection, (i) a
quoted delimiter whose closing quote is missing (the style is still
`SCE_SH_HERE_DELIM`) restyles the pending span as Error and resumes in
the default style without entering body scanning; (ii) an unquoted
zero-length delimiter restyles the span as Error likewise; (iii) a
delimiter-buffer overflow (an append that fills the buffer) switches to
the Error style and resets the here-doc phase to 0 so no body scanning
can start; (iv) with a zero-length delimiter, body scanning is entered
only when the delimiter was quoted. -/
theorem c2_heredoc_delimiter_errors :
    (∀ (d : List Nat) (st : St), st.hdState = 1 → atLineEnd d st.pos = true →
      st.hdQuoted = true → st.style = SCE_SH_HERE_DELIM →
      (hereDocEol d st).style = SCE_SH_DEFAULT ∧
      (hereDocEol d st).styles =
        st.styles ++ List.replicate (st.pos - st.runStart) SCE_SH_ERROR ∧
      (hereDocEol d st).hdState = 2) ∧
    (∀ (d : List Nat) (st : St), st.hdState = 1 → atLineEnd d st.pos = true →
      st.hdQuoted = false → st.hdDelim.length = 0 →
      (hereDocEol d st).style = SCE_SH_DEFAULT ∧
      (hereDocEol d st).styles =
        st.styles ++ List.replicate (st.pos - st.runStart) SCE_SH_ERROR) ∧
    (∀ (d : List Nat) (st : St), st.hdDelim.length = HERE_DELIM_MAX - 2 →
      ((st.hdQuote = 39 ∧ scCh d st ≠ st.hdQuote) ∨
       (st.hdQuoted = true ∧ scCh d st ≠ st.hdQuote ∧ scCh d st ≠ 92) ∨
       (st.hdQuote ≠ 39 ∧ scChPrev d st = 92) ∨
       setHereDoc2 (scCh d st) = true) →
      (hereDelimCollect d st).style = SCE_SH_ERROR ∧
      (hereDelimCollect d st).hdState = 0) ∧
    (∀ (d : List Nat) (st : St), st.hdState = 1 → atLineEnd d st.pos = true →
      st.hdDelim.length = 0 → (hereDocEol d st).style = SCE_SH_HERE_Q →
      st.hdQuoted = true) := by
  refine ⟨?_, ?_, ?_, ?_⟩
  · intro d st h1 h2 h3 h4
    simp [hereDocEol, hereDocEolCore, h1, h2, h3, h4, setState, changeState]
  · intro d st h1 h2 h3 h4
    simp [hereDocEol, hereDocEolCore, h1, h2, h3, h4, setState, changeState]
  · intro d st hlen happ
    have hcond : (st.hdQuote = 39 ∧ scCh d st ≠ st.hdQuote) ∨
        (st.hdQuoted ∧ scCh d st ≠ st.hdQuote ∧ scCh d st ≠ 92) ∨
        (st.hdQuote ≠ 39 ∧ scChPrev d st = 92) ∨
        setHereDoc2 (scCh d st) = true := by
      rcases happ with h | h | h | h
      · exact Or.inl h
      · exact Or.inr (Or.inl ⟨by rw [h.1], h.2.1, h.2.2⟩)
      · exact Or.inr (Or.inr (Or.inl h))
      · exact Or.inr (Or.inr (Or.inr h))
    have hl2 : ((hdAppend st (scCh d st)).hdDelim.length ≥ HERE_DELIM_MAX - 1) := by
      simp [hdAppend, hlen]
      decide
    simp only [hereDelimCollect, if_pos hcond, if_pos hl2]
    simp [hdOverflow, setState, hdAppend]
  · intro d st h1 h2 h3 hq
    by_cases h : st.hdQuoted
    · exact h
    · exfalso
      have hb : st.hdQuoted = false := by simpa using h
      simp [hereDocEol, hereDocEolCore, h1, h2, h3, hb, setState, changeState] at hq

/-- Witness for C2 at concrete inputs. -/
theorem c2_witness :
    (hereDocEol [60, 60, 39, 10]
      { initSt 0 (fun _ => 0) with
        pos := 3
        runStart := 0
        hdState := 1
        hdQuoted := true
        hdQuote := 39
        style := SCE_SH_HERE_DELIM }).style = SCE_SH_DEFAULT ∧
    (hereDocEol [60, 60, 10]
      { initSt 0 (fun _ => 0) with
        pos := 2
        runStart := 0
        hdState := 1
        style := SCE_SH_HERE_DELIM }).styles =
      List.replicate 2 SCE_SH_ERROR ∧
    (hereDelimCollect [97]
      { initSt 0 (fun _ => 0) with
        hdState := 1
        hdQuoted := true
        hdQuote := 39
        hdDelim := List.replicate 254 65
        style := SCE_SH_HERE_DELIM }).hdState = 0 ∧
    ({ initSt 0 (fun _ => 0) with
       pos := 3
       runStart := 0
       hdState := 1
       hdQuoted := true
       hdQuote := 39
       style := SCE_SH_DEFAULT } : St).hdQuoted = true := by
  refine ⟨?_, ?_, ?_, ?_⟩
  · have h := c2_heredoc_delimiter_errors.1 [60, 60, 39, 10]
      { initSt 0 (fun _ => 0) with
        pos := 3
        runStart := 0
        hdState := 1
        hdQuoted := true
        hdQuote := 39
        style := SCE_SH_HERE_DELIM } rfl (by decide) rfl rfl
    exact h.1
  · have h := c2_heredoc_delimiter_errors.2.1 [60, 60, 10]
      { initSt 0 (fun _ => 0) with
        pos := 2
        runStart := 0
        hdState := 1
        style := SCE_SH_HERE_DELIM } rfl (by decide) rfl rfl
    exact h.2
  · have h := c2_heredoc_delimiter_errors.2.2.1 [97]
      { initSt 0 (fun _ => 0) with
        hdState := 1
        hdQuoted := true
        hdQuote := 39
        hdDelim := List.replicate 254 65
        style := SCE_SH_HERE_DELIM } (by simp; rfl) (Or.inl (by decide))
    exact h.2
  · exact c2_heredoc_delimiter_errors.2.2.2 [60, 60, 39, 10, 97]
      { initSt 0 (fun _ => 0) with
        pos := 3
        runStart := 0
        hdState := 1
        hdQuoted := true
        hdQuote := 39
        style := SCE_SH_DEFAULT } rfl (by decide) rfl (by decide)

/-- C3 counterexample: in the document "x test " (bytes below), the
word token `test` is immediately followed by whitespace while the
command state in effect at the token is `BASH_CMD_BODY`; the lexer
styles the token as an identifier — not as a reserved word — and the
command state never moves to `BASH_CMD_TEST`.  So the Start-state
requirement of the disambiguation rule is not waived for `test`. -/
theorem c3_counterexample :
    (bashRun [] [120, 32, 116, 101, 115, 116, 32] 2
      (initSt 0 (fun _ => 0))).cmdState = BASH_CMD_BODY ∧
    IsASpace 32 = true ∧
    styleAbs (colouriseBash [] [120, 32, 116, 101, 115, 116, 32] 0
      (fun _ => 0)) 2 = SCE_SH_IDENTIFIER ∧
    styleAbs (colouriseBash [] [120, 32, 116, 101, 115, 116, 32] 0
      (fun _ => 0)) 5 = SCE_SH_IDENTIFIER ∧
    SCE_SH_IDENTIFIER ≠ SCE_SH_WORD ∧
    (bashRun [] [120, 32, 116, 101, 115, 116, 32] 7
      (initSt 0 (fun _ => 0))).cmdState ≠ BASH_CMD_TEST := by decide

/-- C3 amended: a completed word token `test` is honored as a keyword
(kept as `SCE_SH_WORD` with the command state moved to `BASH_CMD_TEST`)
if and only if the command state in effect is `BASH_CMD_START` and the
token is followed by whitespace or a command delimiter — exactly the
same Start-state requirement as for the other keywords. -/
theorem c3_test_requires_start :
    ∀ (kw : List (List Nat)) (cmdState : Nat) (kE : Bool) (cNI tE : Nat),
      ((bashWordClassify kw cmdState tokTest kE cNI tE).1 = SCE_SH_WORD ∧
       (bashWordClassify kw cmdState tokTest kE cNI tE).2.1 = BASH_CMD_TEST)
      ↔ (cmdState = BASH_CMD_START ∧ kE = true) := by
  intro kw cmdState kE cNI tE
  by_cases h : cmdState = BASH_CMD_START ∧ kE = true
  · simp [bashWordClassify, h]
  · simp only [bashWordClassify, if_pos rfl, if_neg h]
    simp [h]

/-- Witness for C3 at concrete inputs. -/
theorem c3_witness :
    (bashWordClassify [] BASH_CMD_START tokTest true 0 0).1 = SCE_SH_WORD ∧
    ¬ ((bashWordClassify [] BASH_CMD_BODY tokTest true 0 0).1 = SCE_SH_WORD ∧
       (bashWordClassify [] BASH_CMD_BODY tokTest true 0 0).2.1 =
         BASH_CMD_TEST) :=
  ⟨((c3_test_requires_start [] BASH_CMD_START true 0 0).2 ⟨rfl, rfl⟩).1,
   fun hc => by
     have := (c3_test_requires_start [] BASH_CMD_BODY true 0 0).1 hc
     exact absurd this.1 (by decide)⟩

/-- C4 counterexample: for the document "1#0 " (bytes below) the base
prefix parses via `getBashNumberBase` to 1, which lies outside [2,64],
yet the whole numeral "1#0" is styled `SCE_SH_NUMBER` — a valid numeral
style, not Error. -/
theorem c4_counterexample :
    getBashNumberBase [49] = 1 ∧ ((1 : Int) < 2) ∧
    styleAbs (colouriseBash [] [49, 35, 48, 32] 0 (fun _ => 0)) 0 =
      SCE_SH_NUMBER ∧
    styleAbs (colouriseBash [] [49, 35, 48, 32] 0 (fun _ => 0)) 1 =
      SCE_SH_NUMBER ∧
    styleAbs (colouriseBash [] [49, 35, 48, 32] 0 (fun _ => 0)) 2 =
      SCE_SH_NUMBER ∧
    SCE_SH_NUMBER ≠ SCE_SH_ERROR := by decide

/-- C4 amended: the base prefix of a `base#digits` numeral is rejected
(`BASH_BASE_ERROR`) exactly when its decimal value exceeds 64 or it has
more than two digit characters — bases 0 and 1 are not rejected; within
an accepted base (0 ≤ base ≤ 64), a digit character whose case-folded
value is below the base continues the numeral, one whose folded value
is at least the base invalidates the numeral (error sentinel) when that
value is at most 9, and otherwise merely terminates the numeral without
an error; and concretely "2#101" and "0x1F" are styled as valid
numerals while "99#0" is styled as Error. -/
theorem c4_number_base_amended :
    (∀ s : List Nat,
      getBashNumberBase s = BASH_BASE_ERROR ↔
        (decAccum s 0 > 64 ∨ s.length > 2)) ∧
    (∀ (nb : Int) (ch : Nat) (tok : List Nat), 0 ≤ nb → nb ≤ 64 →
      translateBashDigit ch ≠ BASH_BASE_ERROR →
      (foldedDigit nb ch < nb → numberStep nb ch tok = (nb, true)) ∧
      (foldedDigit nb ch ≥ nb → foldedDigit nb ch ≤ 9 →
        numberStep nb ch tok = (BASH_BASE_ERROR, true)) ∧
      (foldedDigit nb ch ≥ nb → foldedDigit nb ch > 9 →
        numberStep nb ch tok = (nb, false))) ∧
    styleAbs (colouriseBash [] [50, 35, 49, 48, 49, 32] 0 (fun _ => 0)) 0 =
      SCE_SH_NUMBER ∧
    styleAbs (colouriseBash [] [57, 57, 35, 48, 32] 0 (fun _ => 0)) 0 =
      SCE_SH_ERROR ∧
    styleAbs (colouriseBash [] [48, 120, 49, 70, 32] 0 (fun _ => 0)) 0 =
      SCE_SH_NUMBER := by
  refine ⟨?_, ?_, by decide, by decide, by decide⟩
  · intro s
    unfold getBashNumberBase
    by_cases h : decAccum s 0 > 64 ∨ s.length > 2
    · simp [h]
    · push_neg at h
      simp only [if_neg (by omega : ¬ (decAccum s 0 > 64 ∨ s.length > 2))]
      constructor
      · intro he
        exfalso
        have : decAccum s 0 = 65 := he
        omega
      · intro hc
        omega
  · intro nb ch tok h0 h64 hd
    have h1 : ¬ nb = BASH_BASE_DECIMAL := by
      intro hx; rw [hx] at h64; exact absurd h64 (by decide)
    have h2 : ¬ nb = BASH_BASE_HEX := by
      intro hx; rw [hx] at h64; exact absurd h64 (by decide)
    have h3 : ¬ nb = BASH_BASE_ERROR := by
      intro hx; rw [hx] at h64; exact absurd h64 (by decide)
    simp only [numberStep, if_neg h1, if_neg h2, if_neg h3, if_pos hd]
    unfold foldedDigit
    refine ⟨?_, ?_, ?_⟩
    · intro hlt
      rw [if_pos hlt]
    · intro hge h9
      rw [if_neg (by omega), if_pos (by omega)]
    · intro hge h9
      rw [if_neg (by omega), if_neg (by omega)]

/-- C1 (divergence of the code from the claimed property): on `c1doc`
a from-offset-0 pass eats whitespace after `<<` across two line breaks,
persists `BASH_CMD_START` for line 1 while the here-doc announcement is
still pending, and styles offsets 5..9 (the quoted delimiter `'abc'`)
as `SCE_SH_HERE_DELIM` and offset 11 as here-doc body; for an edit at
offset 6 the restart-point resolver picks line 1 (offset 3), and the
pass restarted there styles offset 6 as a single-quoted string and
offset 11 as a word — the style bytes from the edit position onward
differ between the two passes. -/
theorem c1_restart_divergence :
    restartPos c1doc
      (colouriseBash [] c1doc 0 (fun _ => 0)).lineStates 6 = 3 ∧
    styleAbs (colouriseBash [] c1doc 0 (fun _ => 0)) 6 = SCE_SH_HERE_DELIM ∧
    styleAbs (colouriseBash [] c1doc 6
      (colouriseBash [] c1doc 0 (fun _ => 0)).lineStates) 6 =
      SCE_SH_CHARACTER ∧
    styleAbs (colouriseBash [] c1doc 0 (fun _ => 0)) 11 = SCE_SH_HERE_Q ∧
    styleAbs (colouriseBash [] c1doc 6
      (colouriseBash [] c1doc 0 (fun _ => 0)).lineStates) 11 = SCE_SH_WORD ∧
    SCE_SH_HERE_DELIM ≠ SCE_SH_CHARACTER ∧ SCE_SH_HERE_Q ≠ SCE_SH_WORD := by
  decide

@[simp] lemma setState_hdState (st : St) (s : Nat) :
    (setState st s).hdState = st.hdState := rfl

@[simp] lemma setState_hdDelim (st : St) (s : Nat) :
    (setState st s).hdDelim = st.hdDelim := rfl

@[simp] lemma changeState_hdState (st : St) (s : Nat) :
    (changeState st s).hdState = st.hdState := rfl

@[simp] lemma changeState_hdDelim (st : St) (s : Nat) :
    (changeState st s).hdDelim = st.hdDelim := rfl

@[simp] lemma fwd_hdState (d : List Nat) (st : St) :
    (fwd d st).hdState = st.hdState := by
  unfold fwd; split <;> rfl

@[simp] lemma fwd_hdDelim (d : List Nat) (st : St) :
    (fwd d st).hdDelim = st.hdDelim := by
  unfold fwd; split <;> rfl

@[simp] lemma fwdN_hdState (d : List Nat) :
    ∀ (n : Nat) (st : St), (fwdN d st n).hdState = st.hdState := by
  intro n
  induction n with
  | zero => intro st; rfl
  | succ m ih => intro st; simp [fwdN, ih]

@[simp] lemma fwdN_hdDelim (d : List Nat) :
    ∀ (n : Nat) (st : St), (fwdN d st n).hdDelim = st.hdDelim := by
  intro n
  induction n with
  | zero => intro st; rfl
  | succ m ih => intro st; simp [fwdN, ih]

@[simp] lemma fwdSetState_hdState (d : List Nat) (st : St) (s : Nat) :
    (fwdSetState d st s).hdState = st.hdState := by
  simp [fwdSetState]

@[simp] lemma fwdSetState_hdDelim (d : List Nat) (st : St) (s : Nat) :
    (fwdSetState d st s).hdDelim = st.hdDelim := by
  simp [fwdSetState]

@[simp] lemma eatTabs_hdState (d : List Nat) :
    ∀ (fuel : Nat) (st : St) (n : Nat),
      (eatTabs d fuel st n).1.hdState = st.hdState := by
  intro fuel
  induction fuel with
  | zero => intro st n; rfl
  | succ f ih =>
    intro st n
    unfold eatTabs
    split
    · rw [ih (fwd d st) (n + 1)]; simp
    · rfl

@[simp] lemma eatTabs_hdDelim (d : List Nat) :
    ∀ (fuel : Nat) (st : St) (n : Nat),
      (eatTabs d fuel st n).1.hdDelim = st.hdDelim := by
  intro fuel
  induction fuel with
  | zero => intro st n; rfl
  | succ f ih =>
    intro st n
    unfold eatTabs
    split
    · rw [ih (fwd d st) (n + 1)]; simp
    · rfl

@[simp] lemma eatTabs_hdQuoted (d : List Nat) :
    ∀ (fuel : Nat) (st : St) (n : Nat),
      (eatTabs d fuel st n).1.hdQuoted = st.hdQuoted := by
  intro fuel
  induction fuel with
  | zero => intro st n; rfl
  | succ f ih =>
    intro st n
    unfold eatTabs
    split
    · rw [ih (fwd d st) (n + 1)]; unfold fwd; split <;> rfl
    · rfl

@[simp] lemma eatTabs_hdIndent (d : List Nat) :
    ∀ (fuel : Nat) (st : St) (n : Nat),
      (eatTabs d fuel st n).1.hdIndent = st.hdIndent := by
  intro fuel
  induction fuel with
  | zero => intro st n; rfl
  | succ f ih =>
    intro st n
    unfold eatTabs
    split
    · rw [ih (fwd d st) (n + 1)]; unfold fwd; split <;> rfl
    · rfl

@[simp] lemma toLineEnd_hdState (d : List Nat) :
    ∀ (fuel : Nat) (st : St),
      (toLineEnd d fuel st).hdState = st.hdState := by
  intro fuel
  induction fuel with
  | zero => intro st; rfl
  | succ f ih =>
    intro st
    unfold toLineEnd
    split
    · rw [ih (fwd d st)]; simp
    · rfl

@[simp] lemma toLineEnd_hdDelim (d : List Nat) :
    ∀ (fuel : Nat) (st : St),
      (toLineEnd d fuel st).hdDelim = st.hdDelim := by
  intro fuel
  induction fuel with
  | zero => intro st; rfl
  | succ f ih =>
    intro st
    unfold toLineEnd
    split
    · rw [ih (fwd d st)]; simp
    · rfl

@[simp] lemma toLineEnd_hdQuoted (d : List Nat) :
    ∀ (fuel : Nat) (st : St),
      (toLineEnd d fuel st).hdQuoted = st.hdQuoted := by
  intro fuel
  induction fuel with
  | zero => intro st; rfl
  | succ f ih =>
    intro st
    unfold toLineEnd
    split
    · rw [ih (fwd d st)]; unfold fwd; split <;> rfl
    · rfl

@[simp] lemma toLineEnd_hdIndent (d : List Nat) :
    ∀ (fuel : Nat) (st : St),
      (toLineEnd d fuel st).hdIndent = st.hdIndent := by
  intro fuel
  induction fuel with
  | zero => intro st; rfl
  | succ f ih =>
    intro st
    unfold toLineEnd
    split
    · rw [ih (fwd d st)]; unfold fwd; split <;> rfl
    · rfl

/-- Transport of the delimiter invariant along preserved fields. -/
lemma delimInv_of_pres {st st' : St} (hs : st'.hdState = st.hdState)
    (hd : st'.hdDelim = st.hdDelim) (h : DelimInv st) : DelimInv st' := by
  intro h1
  rw [hd]
  exact h (by rw [← hs]; exact h1)

@[simp] lemma opCase_hdState (d : List Nat) (st : St) :
    (opCase d st).hdState = st.hdState := by
  unfold opCase
  simp [apply_ite St.hdState, ite_self]

@[simp] lemma opCase_hdDelim (d : List Nat) (st : St) :
    (opCase d st).hdDelim = st.hdDelim := by
  unfold opCase
  simp [apply_ite St.hdDelim, ite_self]

@[simp] lemma wordCase_hdState (kw : List (List Nat)) (d : List Nat) (st : St) :
    (wordCase kw d st).hdState = st.hdState := by
  unfold wordCase
  simp [apply_ite St.hdState, ite_self]

@[simp] lemma wordCase_hdDelim (kw : List (List Nat)) (d : List Nat) (st : St) :
    (wordCase kw d st).hdDelim = st.hdDelim := by
  unfold wordCase
  simp [apply_ite St.hdDelim, ite_self]

@[simp] lemma identCase_hdState (d : List Nat) (st : St) :
    (identCase d st).hdState = st.hdState := by
  unfold identCase
  simp [apply_ite St.hdState, ite_self]

@[simp] lemma identCase_hdDelim (d : List Nat) (st : St) :
    (identCase d st).hdDelim = st.hdDelim := by
  unfold identCase
  simp [apply_ite St.hdDelim, ite_self]

@[simp] lemma numberCase_hdState (d : List Nat) (st : St) :
    (numberCase d st).hdState = st.hdState := by
  unfold numberCase
  simp [apply_ite St.hdState, ite_self]

@[simp] lemma numberCase_hdDelim (d : List Nat) (st : St) :
    (numberCase d st).hdDelim = st.hdDelim := by
  unfold numberCase
  simp [apply_ite St.hdDelim, ite_self]

@[simp] lemma commentCase_hdState (d : List Nat) (st : St) :
    (commentCase d st).hdState = st.hdState := by
  unfold commentCase
  simp [apply_ite St.hdState, ite_self]

@[simp] lemma commentCase_hdDelim (d : List Nat) (st : St) :
    (commentCase d st).hdDelim = st.hdDelim := by
  unfold commentCase
  simp [apply_ite St.hdDelim, ite_self]

@[simp] lemma hereQCase_hdState (d : List Nat) (st : St) :
    (hereQCase d st).hdState = st.hdState := by
  unfold hereQCase
  simp [apply_ite St.hdState, ite_self]

@[simp] lemma hereQCase_hdDelim (d : List Nat) (st : St) :
    (hereQCase d st).hdDelim = st.hdDelim := by
  unfold hereQCase
  simp [apply_ite St.hdDelim, ite_self]

@[simp] lemma scalarCase_hdState (d : List Nat) (st : St) :
    (scalarCase d st).hdState = st.hdState := by
  unfold scalarCase
  simp [apply_ite St.hdState, ite_self]

@[simp] lemma scalarCase_hdDelim (d : List Nat) (st : St) :
    (scalarCase d st).hdDelim = st.hdDelim := by
  unfold scalarCase
  simp [apply_ite St.hdDelim, ite_self]

@[simp] lemma stringCase_hdState (d : List Nat) (st : St) :
    (stringCase d st).hdState = st.hdState := by
  unfold stringCase
  simp [apply_ite St.hdState, ite_self]

@[simp] lemma stringCase_hdDelim (d : List Nat) (st : St) :
    (stringCase d st).hdDelim = st.hdDelim := by
  unfold stringCase
  simp [apply_ite St.hdDelim, ite_self]

@[simp] lemma paramCase_hdState (d : List Nat) (st : St) :
    (paramCase d st).hdState = st.hdState := by
  unfold paramCase
  simp [apply_ite St.hdState, ite_self]

@[simp] lemma paramCase_hdDelim (d : List Nat) (st : St) :
    (paramCase d st).hdDelim = st.hdDelim := by
  unfold paramCase
  simp [apply_ite St.hdDelim, ite_self]

@[simp] lemma charCase_hdState (d : List Nat) (st : St) :
    (charCase d st).hdState = st.hdState := by
  unfold charCase
  simp [apply_ite St.hdState, ite_self]

@[simp] lemma charCase_hdDelim (d : List Nat) (st : St) :
    (charCase d st).hdDelim = st.hdDelim := by
  unfold charCase
  simp [apply_ite St.hdDelim, ite_self]

@[simp] lemma lineStartPhase_hdState (d : List Nat) (st : St) :
    (lineStartPhase d st).hdState = st.hdState := by
  unfold lineStartPhase
  simp [apply_ite St.hdState, ite_self]

@[simp] lemma lineStartPhase_hdDelim (d : List Nat) (st : St) :
    (lineStartPhase d st).hdDelim = st.hdDelim := by
  unfold lineStartPhase
  simp [apply_ite St.hdDelim, ite_self]

@[simp] lemma hashEntry_hdState (d : List Nat) (sp : Nat) (st : St) :
    (hashEntry d sp st).hdState = st.hdState := by
  unfold hashEntry
  simp [apply_ite St.hdState, ite_self]

@[simp] lemma hashEntry_hdDelim (d : List Nat) (sp : Nat) (st : St) :
    (hashEntry d sp st).hdDelim = st.hdDelim := by
  unfold hashEntry
  simp [apply_ite St.hdDelim, ite_self]

@[simp] lemma dollarEntry_hdState (d : List Nat) (st : St) :
    (dollarEntry d st).hdState = st.hdState := by
  unfold dollarEntry
  simp [apply_ite St.hdState, ite_self]

@[simp] lemma dollarEntry_hdDelim (d : List Nat) (st : St) :
    (dollarEntry d st).hdDelim = st.hdDelim := by
  unfold dollarEntry
  simp [apply_ite St.hdDelim, ite_self]

@[simp] lemma cmdDelimCheck_hdState (d : List Nat) (st : St) :
    (cmdDelimCheck d st).1.hdState = st.hdState := by
  simp only [cmdDelimCheck]
  split <;> simp

@[simp] lemma cmdDelimCheck_hdDelim (d : List Nat) (st : St) :
    (cmdDelimCheck d st).1.hdDelim = st.hdDelim := by
  simp only [cmdDelimCheck]
  split <;> simp

@[simp] lemma closingDelims_hdState (d : List Nat) (st : St) :
    (closingDelims d st).hdState = st.hdState := by
  unfold closingDelims
  simp [apply_ite St.hdState, ite_self]

@[simp] lemma closingDelims_hdDelim (d : List Nat) (st : St) :
    (closingDelims d st).hdDelim = st.hdDelim := by
  unfold closingDelims
  simp [apply_ite St.hdDelim, ite_self]

@[simp] lemma operatorEntry_hdState (d : List Nat) (st : St) :
    (operatorEntry d st).hdState = st.hdState := by
  unfold operatorEntry
  simp [apply_ite St.hdState, ite_self]

@[simp] lemma operatorEntry_hdDelim (d : List Nat) (st : St) :
    (operatorEntry d st).hdDelim = st.hdDelim := by
  unfold operatorEntry
  simp [apply_ite St.hdDelim, ite_self]

@[simp] lemma heredocEntry_hdState (d : List Nat) (st : St) :
    (heredocEntry d st).hdState = 0 := by
  unfold heredocEntry
  simp [apply_ite St.hdState, ite_self]

@[simp] lemma heredocEntry_hdDelim (d : List Nat) (st : St) :
    (heredocEntry d st).hdDelim = st.hdDelim := by
  unfold heredocEntry
  simp [apply_ite St.hdDelim, ite_self]

/-- The announcement handler leaves an empty delimiter buffer. -/
@[simp] lemma hereDelimAnnounce_hdDelim (d : List Nat) (st : St) :
    (hereDelimAnnounce d st).hdDelim = [] := by
  unfold hereDelimAnnounce
  simp [apply_ite St.hdDelim, ite_self]

lemma hereDelimAnnounce_inv (d : List Nat) (st : St) :
    DelimInv (hereDelimAnnounce d st) := by
  intro hs
  simp

@[simp] lemma hdOverflow_hdState (st : St) : (hdOverflow st).hdState = 0 := rfl

@[simp] lemma hereDocEolCore_hdState (st : St) :
    (hereDocEolCore st).hdState = 2 := by
  unfold hereDocEolCore
  simp [apply_ite St.hdState, ite_self]

@[simp] lemma hereDocEolCore_hdDelim (st : St) :
    (hereDocEolCore st).hdDelim = st.hdDelim := by
  unfold hereDocEolCore
  simp [apply_ite St.hdDelim, ite_self]

/-- The overflow check either keeps the buffer below the bound (the
check just failed) or resets the phase to 0, so the invariant holds
unconditionally afterwards. -/
lemma overflowCheck_inv (st1 : St) :
    DelimInv (if st1.hdDelim.length ≥ HERE_DELIM_MAX - 1 then hdOverflow st1
      else st1) := by
  split
  · intro hs
    rw [hdOverflow_hdState] at hs
    exact absurd hs (by decide)
  · next hle =>
    intro _
    have h1 : ¬ st1.hdDelim.length ≥ 255 := hle
    show st1.hdDelim.length ≤ 254
    omega

lemma hereDelimCollect_inv (d : List Nat) (st : St) :
    DelimInv (hereDelimCollect d st) := by
  simp only [hereDelimCollect]
  exact overflowCheck_inv _

lemma hereDelimCase_inv (d : List Nat) (st : St) (h : DelimInv st) :
    DelimInv (hereDelimCase d st) := by
  unfold hereDelimCase
  split_ifs
  · intro hs
    simp
  · exact hereDelimCollect_inv d st
  · exact h

lemma hereDocEol_inv (d : List Nat) (st : St) (h : DelimInv st) :
    DelimInv (hereDocEol d st) := by
  unfold DelimInv hereDocEol
  split
  · intro hs
    rw [hereDocEolCore_hdState] at hs
    exact absurd hs (by decide)
  · exact h

lemma heredocEntry_inv (d : List Nat) (st : St) :
    DelimInv (heredocEntry d st) := by
  intro hs
  rw [heredocEntry_hdState] at hs
  exact absurd hs (by decide)

@[simp] lemma backslashEntry_hdState (d : List Nat) (st : St) :
    (backslashEntry d st).hdState = st.hdState := by
  unfold backslashEntry
  simp [apply_ite St.hdState, ite_self]

@[simp] lemma backslashEntry_hdDelim (d : List Nat) (st : St) :
    (backslashEntry d st).hdDelim = st.hdDelim := by
  unfold backslashEntry
  simp [apply_ite St.hdDelim, ite_self]

@[simp] lemma digitEntry_hdState (d : List Nat) (st : St) :
    (digitEntry d st).hdState = st.hdState := by
  unfold digitEntry
  simp [apply_ite St.hdState, ite_self]

@[simp] lemma digitEntry_hdDelim (d : List Nat) (st : St) :
    (digitEntry d st).hdDelim = st.hdDelim := by
  unfold digitEntry
  simp [apply_ite St.hdDelim, ite_self]

@[simp] lemma stringEntry_hdState (st : St) :
    (stringEntry st).hdState = st.hdState := rfl

@[simp] lemma stringEntry_hdDelim (st : St) :
    (stringEntry st).hdDelim = st.hdDelim := rfl

@[simp] lemma charEntry_hdState (st : St) :
    (charEntry st).hdState = st.hdState := rfl

@[simp] lemma charEntry_hdDelim (st : St) :
    (charEntry st).hdDelim = st.hdDelim := rfl

@[simp] lemma backtickEntry_hdState (st : St) :
    (backtickEntry st).hdState = st.hdState := rfl

@[simp] lemma backtickEntry_hdDelim (st : St) :
    (backtickEntry st).hdDelim = st.hdDelim := rfl

@[simp] lemma defaultPhase_hdDelim (d : List Nat) (sp : Nat) (st : St) :
    (defaultPhase d sp st).hdDelim = st.hdDelim := by
  unfold defaultPhase
  simp only [apply_ite St.hdDelim, setState_hdDelim, changeState_hdDelim,
    fwd_hdDelim, fwdN_hdDelim, fwdSetState_hdDelim, hashEntry_hdDelim,
    dollarEntry_hdDelim, heredocEntry_hdDelim, operatorEntry_hdDelim,
    backslashEntry_hdDelim, digitEntry_hdDelim, stringEntry_hdDelim,
    charEntry_hdDelim, backtickEntry_hdDelim, ite_self]

lemma defaultPhase_hdState_cases (d : List Nat) (sp : Nat) (st : St) :
    (defaultPhase d sp st).hdState = st.hdState ∨
    (defaultPhase d sp st).hdState = 0 := by
  unfold defaultPhase
  simp only [apply_ite St.hdState, setState_hdState, changeState_hdState,
    fwd_hdState, fwdN_hdState, fwdSetState_hdState, hashEntry_hdState,
    dollarEntry_hdState, heredocEntry_hdState, operatorEntry_hdState,
    backslashEntry_hdState, digitEntry_hdState, stringEntry_hdState,
    charEntry_hdState, backtickEntry_hdState, ite_self]
  repeat' first
    | exact Or.inl rfl
    | exact Or.inr rfl
    | split

lemma defaultPhase_inv (d : List Nat) (sp : Nat) (st : St)
    (h : DelimInv st) : DelimInv (defaultPhase d sp st) := by
  intro hs
  rw [defaultPhase_hdDelim]
  rcases defaultPhase_hdState_cases d sp st with hp | h0
  · exact h (by rw [← hp]; exact hs)
  · rw [h0] at hs
    exact absurd hs (by decide)

@[simp] lemma cmdStateNewInit_hdState (st : St) :
    (cmdStateNewInit st).hdState = st.hdState := rfl

@[simp] lemma cmdStateNewInit_hdDelim (st : St) :
    (cmdStateNewInit st).hdDelim = st.hdDelim := rfl

@[simp] lemma cmdStateUpdatePhase_hdState (sp : Nat) (st : St) :
    (cmdStateUpdatePhase sp st).hdState = st.hdState := by
  unfold cmdStateUpdatePhase
  split <;> rfl

@[simp] lemma cmdStateUpdatePhase_hdDelim (sp : Nat) (st : St) :
    (cmdStateUpdatePhase sp st).hdDelim = st.hdDelim := by
  unfold cmdStateUpdatePhase
  split <;> rfl

lemma switchPhase_inv (kw : List (List Nat)) (d : List Nat) (st : St)
    (h : DelimInv st) : DelimInv (switchPhase kw d st) := by
  unfold switchPhase
  by_cases h1 : st.style = SCE_SH_OPERATOR
  · rw [if_pos h1]
    exact delimInv_of_pres (opCase_hdState d st) (opCase_hdDelim d st) h
  rw [if_neg h1]
  by_cases h2 : st.style = SCE_SH_WORD
  · rw [if_pos h2]
    exact delimInv_of_pres (wordCase_hdState kw d st) (wordCase_hdDelim kw d st) h
  rw [if_neg h2]
  by_cases h3 : st.style = SCE_SH_IDENTIFIER
  · rw [if_pos h3]
    exact delimInv_of_pres (identCase_hdState d st) (identCase_hdDelim d st) h
  rw [if_neg h3]
  by_cases h4 : st.style = SCE_SH_NUMBER
  · rw [if_pos h4]
    exact delimInv_of_pres (numberCase_hdState d st) (numberCase_hdDelim d st) h
  rw [if_neg h4]
  by_cases h5 : st.style = SCE_SH_COMMENTLINE
  · rw [if_pos h5]
    exact delimInv_of_pres (commentCase_hdState d st) (commentCase_hdDelim d st) h
  rw [if_neg h5]
  by_cases h6 : st.style = SCE_SH_HERE_DELIM
  · rw [if_pos h6]
    exact hereDelimCase_inv d st h
  rw [if_neg h6]
  by_cases h7 : st.style = SCE_SH_HERE_Q
  · rw [if_pos h7]
    exact delimInv_of_pres (hereQCase_hdState d st) (hereQCase_hdDelim d st) h
  rw [if_neg h7]
  by_cases h8 : st.style = SCE_SH_SCALAR
  · rw [if_pos h8]
    exact delimInv_of_pres (scalarCase_hdState d st) (scalarCase_hdDelim d st) h
  rw [if_neg h8]
  by_cases h9 : st.style = SCE_SH_STRING ∨ st.style = SCE_SH_BACKTICKS
  · rw [if_pos h9]
    exact delimInv_of_pres (stringCase_hdState d st) (stringCase_hdDelim d st) h
  rw [if_neg h9]
  by_cases h10 : st.style = SCE_SH_PARAM
  · rw [if_pos h10]
    exact delimInv_of_pres (paramCase_hdState d st) (paramCase_hdDelim d st) h
  rw [if_neg h10]
  by_cases h11 : st.style = SCE_SH_CHARACTER
  · rw [if_pos h11]
    exact delimInv_of_pres (charCase_hdState d st) (charCase_hdDelim d st) h
  rw [if_neg h11]
  exact h

lemma bashIteration_inv (kw : List (List Nat)) (d : List Nat) (st : St)
    (h : DelimInv st) : DelimInv (bashIteration kw d st) := by
  simp only [bashIteration]
  apply defaultPhase_inv
  apply delimInv_of_pres (cmdStateUpdatePhase_hdState _ _)
    (cmdStateUpdatePhase_hdDelim _ _)
  apply hereDocEol_inv
  apply switchPhase_inv
  exact delimInv_of_pres (cmdStateNewInit_hdState _) (cmdStateNewInit_hdDelim _)
    (delimInv_of_pres (lineStartPhase_hdState d st) (lineStartPhase_hdDelim d st) h)

lemma bashRun_inv (kw : List (List Nat)) (d : List Nat) :
    ∀ (fuel : Nat) (st : St), DelimInv st → DelimInv (bashRun kw d fuel st) := by
  intro fuel
  induction fuel with
  | zero => intro st h; exact h
  | succ f ih =>
    intro st h
    unfold bashRun
    split
    · exact ih _ (delimInv_of_pres (by simp) (by simp)
        (bashIteration_inv kw d st h))
    · exact h


/-- C10: in every reachable state of a lexing pass, while the here-doc
sub-machine is collecting a delimiter the buffer length is at most
`HERE_DELIM_MAX - 2`, so `Append`'s two writes (the character at index
`DelimiterLength` and the NUL at `DelimiterLength + 1`) stay strictly
inside the `HERE_DELIM_MAX`-byte array: each `<<` announcement resets
the length to 0 and an append that fills the buffer immediately styles
the span as Error and resets the phase, stopping further appends. -/
theorem c10_delimiter_bound :
    ∀ (kw : List (List Nat)) (d : List Nat) (fuel startPos : Nat)
      (ls : Nat → Nat),
      (bashRun kw d fuel (initSt startPos ls)).hdState = 1 →
      (bashRun kw d fuel (initSt startPos ls)).hdDelim.length + 1 <
        HERE_DELIM_MAX := by
  intro kw d fuel startPos ls hs
  have h0 : DelimInv (initSt startPos ls) := by
    intro h1
    simp [initSt] at h1
  have := bashRun_inv kw d fuel (initSt startPos ls) h0 hs
  unfold HERE_DELIM_MAX at this ⊢
  omega

lemma chAt_append_right (pre l : List Nat) (j : Nat) :
    chAt (pre ++ l) (pre.length + j) = chAt l j := by
  unfold chAt
  simp only [List.getD, List.get?_eq_getElem?]
  rw [List.getElem?_append_right (Nat.le_add_right _ _)]
  simp

lemma chAt_append_lt (l rest : List Nat) (j : Nat) (h : j < l.length) :
    chAt (l ++ rest) j = l.getD j 0 := by
  unfold chAt
  simp only [List.getD, List.get?_eq_getElem?]
  rw [List.getElem?_append_left h]

lemma chAt_replicate_lt (k c : Nat) (rest : List Nat) (j : Nat) (h : j < k) :
    chAt (List.replicate k c ++ rest) j = c := by
  rw [chAt_append_lt _ _ _ (by simpa using h)]
  simp [List.getD, List.getElem?_replicate, h]

lemma not_atLineEnd_succ_lt (d : List Nat) (p : Nat)
    (h : atLineEnd d p = false) : p + 1 < d.length := by
  unfold atLineEnd at h
  simp only [Bool.or_eq_false_iff] at h
  have h1 := h.1.1
  simp at h1
  omega

lemma atLineEnd_false_of (d : List Nat) (p : Nat) (h1 : p + 1 < d.length)
    (h2 : chAt d p ≠ 10) (h3 : chAt d p ≠ 13) : atLineEnd d p = false := by
  unfold atLineEnd
  simp only [Bool.or_eq_false_iff]
  refine ⟨⟨?_, ?_⟩, ?_⟩
  · simp only [decide_eq_false_iff_not]
    omega
  · simp [h2]
  · simp [h3]

lemma atLineEnd_true_of_nl (d : List Nat) (p : Nat) (h : chAt d p = 10) :
    atLineEnd d p = true := by
  unfold atLineEnd
  simp [h]

/-- Running the tab-prefix loop over exactly `k` tab positions. -/
lemma eatTabs_tabs (d : List Nat) :
    ∀ (k fuel : Nat) (st : St) (n0 : Nat),
      (∀ j, j < k → chAt d (st.pos + j) = 9 ∧ atLineEnd d (st.pos + j) = false) →
      ¬ (chAt d (st.pos + k) = 9 ∧ atLineEnd d (st.pos + k) = false) →
      fuel ≥ k →
      eatTabs d fuel st n0 = ({ st with pos := st.pos + k }, n0 + k) := by
  intro k
  induction k with
  | zero =>
    intro fuel st n0 hall hstop hfuel
    have hstop' : ¬ (chAt d st.pos = 9 ∧ atLineEnd d st.pos = false) := by
      simpa using hstop
    cases fuel with
    | zero => simp [eatTabs]
    | succ f =>
      unfold eatTabs
      rw [if_neg]
      · simp
      · intro hc
        exact hstop' ⟨hc.1, by simpa using hc.2⟩
  | succ m ih =>
    intro fuel st n0 hall hstop hfuel
    cases fuel with
    | zero => omega
    | succ f =>
      have h0 := hall 0 (by omega)
      simp only [Nat.add_zero] at h0
      have hlt : st.pos < d.length := by
        have := not_atLineEnd_succ_lt d st.pos h0.2
        omega
      have hfwd : fwd d st = { st with pos := st.pos + 1 } := by
        unfold fwd
        rw [if_pos hlt]
      unfold eatTabs
      rw [if_pos ⟨by simpa [scCh] using h0.1, by simp [h0.2]⟩, hfwd]
      rw [ih f { st with pos := st.pos + 1 } (n0 + 1) ?_ ?_ (by omega)]
      · have e1 : st.pos + 1 + m = st.pos + (m + 1) := by omega
        have e2 : n0 + 1 + m = n0 + (m + 1) := by omega
        simp only []
        rw [e1, e2]
      · intro j hj
        have := hall (j + 1) (by omega)
        simpa [Nat.add_assoc, Nat.add_comm 1 j] using this
      · have e3 : st.pos + 1 + m = st.pos + (m + 1) := by omega
        simpa [e3] using hstop

/-- Running the to-line-end loop over exactly `m` non-final positions. -/
lemma toLineEnd_run (d : List Nat) :
    ∀ (m fuel : Nat) (st : St),
      (∀ j, j < m → atLineEnd d (st.pos + j) = false) →
      atLineEnd d (st.pos + m) = true →
      fuel ≥ m →
      toLineEnd d fuel st = { st with pos := st.pos + m } := by
  intro m
  induction m with
  | zero =>
    intro fuel st hall hend hfuel
    cases fuel with
    | zero => simp [toLineEnd]
    | succ f =>
      unfold toLineEnd
      rw [if_neg]
      · simp
      · simp only [Nat.add_zero] at hend
        simp [hend]
  | succ m ih =>
    intro fuel st hall hend hfuel
    cases fuel with
    | zero => omega
    | succ f =>
      have h0 := hall 0 (by omega)
      simp only [Nat.add_zero] at h0
      have hlt : st.pos < d.length := by
        have := not_atLineEnd_succ_lt d st.pos h0
        omega
      have hfwd : fwd d st = { st with pos := st.pos + 1 } := by
        unfold fwd
        rw [if_pos hlt]
      unfold toLineEnd
      rw [if_pos (by simp [h0]), hfwd]
      rw [ih f { st with pos := st.pos + 1 } ?_ ?_ (by omega)]
      · have e1 : st.pos + 1 + m = st.pos + (m + 1) := by omega
        simp only []
        rw [e1]
      · intro j hj
        have := hall (j + 1) (by omega)
        simpa [Nat.add_assoc, Nat.add_comm 1 j] using this
      · have e3 : st.pos + 1 + m = st.pos + (m + 1) := by omega
        simpa [e3] using hend

/-- C6: a line consisting of one or more tabs followed by the stored
delimiter ends the here-document exactly when indentation stripping
(`<<-`) was requested: the handler leaves the style at `SCE_SH_DEFAULT`
when `HereDoc.Indent` is set, and keeps the line styled `SCE_SH_HERE_Q`
(still inside the body) when it is not; in both cases the cursor stops
at the line terminator and the tab prefix is committed as here-doc
body. -/
theorem c6_heredoc_indent (pre post δ : List Nat) (k : Nat) (st : St)
    (d : List Nat)
    (hdoc : d = pre ++ List.replicate k 9 ++ δ ++ 10 :: post)
    (hpos : st.pos = pre.length)
    (hk : 1 ≤ k) (hne : δ ≠ []) (hhead : δ.headD 0 ≠ 9)
    (hclean : ∀ c ∈ δ, c ≠ 10 ∧ c ≠ 13)
    (hlen : δ.length ≤ 254)
    (hstart : atLineStart d st.pos = true)
    (hdel : st.hdDelim = δ) :
    (hereQCase d st).style =
      (if st.hdIndent then SCE_SH_DEFAULT else SCE_SH_HERE_Q) ∧
    (hereQCase d st).pos = st.pos + k + δ.length ∧
    (hereQCase d st).styles =
      st.styles ++ List.replicate (st.pos - st.runStart) st.style ++
      List.replicate k SCE_SH_HERE_Q ++
      (if st.hdIndent then List.replicate δ.length SCE_SH_HERE_Q else []) := by
  have hmpos : 0 < δ.length := List.length_pos.mpr hne
  have hd2 : d = pre ++ (List.replicate k 9 ++ (δ ++ 10 :: post)) := by
    rw [hdoc]
    simp [List.append_assoc]
  have hdlen : d.length = pre.length + (k + (δ.length + (1 + post.length))) := by
    rw [hd2]
    simp [Nat.add_assoc]
    omega
  have hc9 : ∀ j, j < k → chAt d (st.pos + j) = 9 := by
    intro j hj
    rw [hpos, hd2, chAt_append_right, chAt_replicate_lt _ _ _ _ hj]
  have hdj : ∀ j, j < δ.length → chAt d (st.pos + k + j) = δ.getD j 0 := by
    intro j hj
    have e : st.pos + k + j = pre.length + (k + j) := by omega
    rw [e, hd2, chAt_append_right]
    have e2 : k + j = (List.replicate k 9 : List Nat).length + j := by simp
    rw [e2, chAt_append_right, chAt_append_lt _ _ _ hj]
  have hnl : chAt d (st.pos + k + δ.length) = 10 := by
    have e : st.pos + k + δ.length = pre.length + (k + δ.length) := by omega
    rw [e, hd2, chAt_append_right]
    have e2 : k + δ.length = (List.replicate k 9 : List Nat).length + δ.length := by
      simp
    rw [e2, chAt_append_right]
    unfold chAt
    simp only [List.getD, List.get?_eq_getElem?]
    rw [List.getElem?_append_right (Nat.le_refl _)]
    simp
  have hmem : ∀ j, j < δ.length → δ.getD j 0 ∈ δ := by
    intro j hj
    rw [List.getD_eq_getElem δ 0 hj]
    exact List.getElem_mem hj
  have hAEk : ∀ j, j < k → atLineEnd d (st.pos + j) = false := by
    intro j hj
    have h9 := hc9 j hj
    apply atLineEnd_false_of
    · omega
    · rw [h9]
      omega
    · rw [h9]
      omega
  have hAEm : ∀ j, j < δ.length → atLineEnd d (st.pos + k + j) = false := by
    intro j hj
    have hcj := hdj j hj
    apply atLineEnd_false_of
    · omega
    · rw [hcj]
      exact (hclean _ (hmem j hj)).1
    · rw [hcj]
      exact (hclean _ (hmem j hj)).2
  have hEnd : atLineEnd d (st.pos + k + δ.length) = true :=
    atLineEnd_true_of_nl d _ hnl
  have hh0 : δ.getD 0 0 ≠ 9 := by
    cases δ with
    | nil => exact absurd rfl hne
    | cons a t => simpa using hhead
  have hT : eatTabs d d.length (setState st SCE_SH_HERE_Q) 0 =
      ({ setState st SCE_SH_HERE_Q with pos := st.pos + k }, 0 + k) := by
    apply eatTabs_tabs d k d.length (setState st SCE_SH_HERE_Q) 0
    · intro j hj
      exact ⟨hc9 j hj, hAEk j hj⟩
    · intro hc
      have hc1 : chAt d (st.pos + k) = 9 := hc.1
      have h0 := hdj 0 hmpos
      simp only [Nat.add_zero] at h0
      rw [h0] at hc1
      exact hh0 hc1
    · omega
  have hL : toLineEnd d d.length
      (setState { setState st SCE_SH_HERE_Q with pos := st.pos + k }
        SCE_SH_HERE_Q) =
      { setState { setState st SCE_SH_HERE_Q with pos := st.pos + k }
          SCE_SH_HERE_Q with
        pos := st.pos + k + δ.length } := by
    apply toLineEnd_run d δ.length d.length
    · intro j hj
      exact hAEm j hj
    · exact hEnd
    · omega
  have hlast13 : ¬ ((δ.getLast? : Option Nat) = some 13) := by
    intro h
    rw [List.getLast?_eq_getLast_of_ne_nil hne] at h
    have h13 : δ.getLast hne = 13 := by
      injection h
    have hm := List.getLast_mem hne
    rw [h13] at hm
    exact (hclean 13 hm).2 rfl
  have hdrop : d.drop (st.pos + k) = δ ++ 10 :: post := by
    have hd3 : d = (pre ++ List.replicate k 9) ++ (δ ++ 10 :: post) := by
      rw [hdoc]
      simp [List.append_assoc]
    rw [hd3, hpos]
    have e : pre.length + k = (pre ++ List.replicate k 9).length := by simp
    rw [e, List.drop_left]
  have hkpos : 0 + k > 0 := by omega
  have e0 : st.pos + k - st.pos = k := by omega
  have e1 : st.pos + k + δ.length - (st.pos + k) = δ.length := by omega
  have hle : δ.length ≤ HERE_DELIM_MAX - 1 := by
    show δ.length ≤ 255
    omega
  have htake : (δ ++ 10 :: post).take δ.length = δ := List.take_left δ _
  simp only [hereQCase, hstart, if_true]
  rw [hT]
  simp only []
  rw [if_pos hkpos]
  simp only [] at hL
  rw [hL]
  simp only [setState, lengthCurrent, getCurrentTok]
  rw [e0, e1]
  rw [if_neg (show ¬ (δ.length = 0) by omega)]
  rw [min_eq_left hle, hdrop, htake]
  rw [if_neg hlast13]
  rw [hdel]
  cases hI : st.hdIndent
  · rw [if_neg]
    · refine ⟨by simp, by simp, by simp⟩
    · rintro ⟨-, h | ⟨-, h⟩⟩
      · omega
      · simp at h
  · rw [if_pos ⟨rfl, Or.inr ⟨hkpos, rfl⟩⟩]
    refine ⟨by simp, by simp, by simp⟩

/-- Witness for C6 at the document consisting of one tab, the delimiter
EOF and a newline, with the stored delimiter EOF, in both the
indentation-stripping and the plain announcement states. -/
theorem c6_witness :
    (hereQCase [9, 69, 79, 70, 10]
      { initSt 0 (fun _ => 0) with
        hdDelim := [69, 79, 70]
        hdIndent := true }).style = SCE_SH_DEFAULT ∧
    (hereQCase [9, 69, 79, 70, 10]
      { initSt 0 (fun _ => 0) with hdDelim := [69, 79, 70] }).style =
      SCE_SH_HERE_Q := by
  constructor
  · exact (c6_heredoc_indent [] [] [69, 79, 70] 1
      { initSt 0 (fun _ => 0) with
        hdDelim := [69, 79, 70]
        hdIndent := true }
      [9, 69, 79, 70, 10] (by decide) (by decide) (by decide) (by decide)
      (by decide) (by decide) (by decide) (by decide) (by decide)).1
  · exact (c6_heredoc_indent [] [] [69, 79, 70] 1
      { initSt 0 (fun _ => 0) with hdDelim := [69, 79, 70] }
      [9, 69, 79, 70, 10] (by decide) (by decide) (by decide) (by decide)
      (by decide) (by decide) (by decide) (by decide) (by decide)).1

/-- Witness for C10 at a concrete input reaching the collecting phase. -/
theorem c10_witness :
    (bashRun [] [60, 60, 69] 2 (initSt 0 (fun _ => 0))).hdState = 1 ∧
    (bashRun [] [60, 60, 69] 2 (initSt 0 (fun _ => 0))).hdDelim.length + 1 <
      HERE_DELIM_MAX :=
  ⟨by decide, c10_delimiter_bound [] [60, 60, 69] 2 0 (fun _ => 0) (by decide)⟩

/-- Witness for C4 at concrete inputs. -/
theorem c4_witness :
    getBashNumberBase [57, 57] = BASH_BASE_ERROR ∧
    numberStep 2 50 [] = (BASH_BASE_ERROR, true) ∧
    numberStep 2 97 [] = (2, false) :=
  ⟨(c4_number_base_amended.1 [57, 57]).2 (Or.inl (by decide)),
   (c4_number_base_amended.2.1 2 50 [] (by decide) (by decide)
     (by decide)).2.1 (by decide) (by decide),
   (c4_number_base_amended.2.1 2 97 [] (by decide) (by decide)
     (by decide)).2.2 (by decide) (by decide)⟩

lemma foldInvCore_nil (lp : Int) (lc : Nat) : FoldInvCore [] lp lc := by
  constructor
  · intro j e1 e2 h1 _
    simp at h1
  · intro e he
    simp at he

/-- Appending one emission whose header compares the new `levelPrev`
with the emitted level preserves the fold invariant. -/
lemma foldInvCore_emit (l : List FoldEmit) (lp A : Int) (lc v : Nat)
    (w : Bool) (h : FoldInvCore l lp lc) :
    FoldInvCore
      (l ++ [⟨lc, ⟨lp, w, decide (A > lp) && decide (v > 0)⟩, v⟩])
      A (lc + 1) := by
  constructor
  · intro j e1 e2 hj1 hj2
    rcases Nat.lt_trichotomy (j + 1) l.length with hlt | heq | hgt
    · rw [List.getElem?_append_left hlt] at hj2
      rw [List.getElem?_append_left (by omega)] at hj1
      exact h.1 j e1 e2 hj1 hj2
    · rw [List.getElem?_append_left (by omega)] at hj1
      have hx : (l ++
          [(⟨lc, ⟨lp, w, decide (A > lp) && decide (v > 0)⟩, v⟩ :
            FoldEmit)])[j + 1]? =
          some ⟨lc, ⟨lp, w, decide (A > lp) && decide (v > 0)⟩, v⟩ := by
        rw [heq, List.getElem?_append_right (Nat.le_refl _)]
        simp
      rw [hx] at hj2
      injection hj2 with hj2
      have hlast : l.getLast? = some e1 := by
        rw [List.getLast?_eq_getElem? l, show l.length - 1 = j by omega]
        exact hj1
      have h2 := h.2 e1 hlast
      subst hj2
      refine ⟨?_, ?_⟩
      · simpa using h2.1
      · simpa using h2.2.symm
    · have hnone : (l ++
          [(⟨lc, ⟨lp, w, decide (A > lp) && decide (v > 0)⟩, v⟩ :
            FoldEmit)])[j + 1]? = none := by
        apply List.getElem?_eq_none
        simp
        omega
      rw [hnone] at hj2
      exact absurd hj2 (by simp)
  · intro e he
    rw [List.getLast?_concat] at he
    injection he with he
    subst he
    exact ⟨rfl, rfl⟩

/-- One fold iteration preserves the fold invariant. -/
lemma foldIteration_inv (d : List Nat) (sF : Nat → Nat) (ic : Int → Bool)
    (fc fcp csh : Bool) (st : FoldSt)
    (h : FoldInvCore st.emits st.levelPrev st.lineCurrent) :
    FoldInvCore (foldIteration d sF ic fc fcp csh st).emits
      (foldIteration d sF ic fc fcp csh st).levelPrev
      (foldIteration d sF ic fc fcp csh st).lineCurrent := by
  simp only [foldIteration]
  by_cases hE : (foldChAt d st.i = 13 ∧ foldChAt d (st.i + 1) ≠ 10) ∨
      foldChAt d st.i = 10
  · rw [if_pos hE]
    exact foldInvCore_emit st.emits st.levelPrev _ st.lineCurrent _ _ h
  · rw [if_neg hE]
    exact h

/-- The whole fold loop preserves the fold invariant. -/
lemma foldRun_inv (d : List Nat) (sF : Nat → Nat) (ic : Int → Bool)
    (fc fcp csh : Bool) (endPos : Nat) :
    ∀ (fuel : Nat) (st : FoldSt),
      FoldInvCore st.emits st.levelPrev st.lineCurrent →
      FoldInvCore (foldRun d sF ic fc fcp csh endPos fuel st).emits
        (foldRun d sF ic fc fcp csh endPos fuel st).levelPrev
        (foldRun d sF ic fc fcp csh endPos fuel st).lineCurrent := by
  intro fuel
  induction fuel with
  | zero =>
    intro st h
    exact h
  | succ f ih =>
    intro st h
    unfold foldRun
    by_cases hc : st.i < endPos
    · rw [if_pos hc]
      exact ih _ (foldIteration_inv d sF ic fc fcp csh st h)
    · rw [if_neg hc]
      exact h

/-- C8: the fold computer's emitted header flag is true exactly when
the line's fold level is less than the next line's fold level (read
from the next emission, or from the final fill-in entry of the level
table for the last emitted line) and the line has at least one visible
character; a blank line (zero visible characters) never carries the
header flag. -/
theorem c8_fold_header (d : List Nat) (sF : Nat → Nat) (ic : Int → Bool)
    (fc fcp csh : Bool) (il : Nat → FoldLev) (sp j : Nat)
    (e1 e2 : FoldEmit)
    (h1 : (foldBash d sF ic fc fcp csh il sp).emits[j]? = some e1) :
    ((foldBash d sF ic fc fcp csh il sp).emits[j + 1]? = some e2 →
      e1.lev.header =
        (decide (e2.lev.num > e1.lev.num) && decide (e1.visible > 0)) ∧
      e2.line = e1.line + 1) ∧
    ((foldBash d sF ic fc fcp csh il sp).emits[j + 1]? = none →
      e1.lev.header =
        (decide (((foldBash d sF ic fc fcp csh il sp).levels
            (e1.line + 1)).num > e1.lev.num) &&
         decide (e1.visible > 0))) ∧
    (e1.visible = 0 → e1.lev.header = false) := by
  have hrun : FoldInvCore
      (foldRun d sF ic fc fcp csh d.length d.length
        (foldInit d il sp)).emits
      (foldRun d sF ic fc fcp csh d.length d.length
        (foldInit d il sp)).levelPrev
      (foldRun d sF ic fc fcp csh d.length d.length
        (foldInit d il sp)).lineCurrent :=
    foldRun_inv d sF ic fc fcp csh d.length d.length (foldInit d il sp)
      (foldInvCore_nil _ _)
  have h1R : (foldRun d sF ic fc fcp csh d.length d.length
      (foldInit d il sp)).emits[j]? = some e1 := h1
  have hlastcase : (foldRun d sF ic fc fcp csh d.length d.length
        (foldInit d il sp)).emits[j + 1]? = none →
      e1.lev.header =
        (decide ((foldRun d sF ic fc fcp csh d.length d.length
            (foldInit d il sp)).levelPrev > e1.lev.num) &&
         decide (e1.visible > 0)) ∧
      e1.line + 1 = (foldRun d sF ic fc fcp csh d.length d.length
        (foldInit d il sp)).lineCurrent := by
    intro hnR
    have hjlt : j < (foldRun d sF ic fc fcp csh d.length d.length
        (foldInit d il sp)).emits.length := (List.getElem?_eq_some.1 h1R).1
    have hge : (foldRun d sF ic fc fcp csh d.length d.length
        (foldInit d il sp)).emits.length ≤ j + 1 := by
      by_contra hcon
      push_neg at hcon
      rw [List.getElem?_eq_getElem hcon] at hnR
      exact absurd hnR (by simp)
    have hlast : (foldRun d sF ic fc fcp csh d.length d.length
        (foldInit d il sp)).emits.getLast? = some e1 := by
      rw [List.getLast?_eq_getElem?,
        show (foldRun d sF ic fc fcp csh d.length d.length
          (foldInit d il sp)).emits.length - 1 = j by omega]
      exact h1R
    exact hrun.2 e1 hlast
  have hnum : ∀ n, n = (foldRun d sF ic fc fcp csh d.length d.length
        (foldInit d il sp)).lineCurrent →
      ((foldBash d sF ic fc fcp csh il sp).levels n).num =
      (foldRun d sF ic fc fcp csh d.length d.length
        (foldInit d il sp)).levelPrev := by
    intro n hn
    show (updFL (foldRun d sF ic fc fcp csh d.length d.length
        (foldInit d il sp)).levels
      (foldRun d sF ic fc fcp csh d.length d.length
        (foldInit d il sp)).lineCurrent
      { num := (foldRun d sF ic fc fcp csh d.length d.length
          (foldInit d il sp)).levelPrev
        white := ((foldRun d sF ic fc fcp csh d.length d.length
          (foldInit d il sp)).levels
          (foldRun d sF ic fc fcp csh d.length d.length
            (foldInit d il sp)).lineCurrent).white
        header := ((foldRun d sF ic fc fcp csh d.length d.length
          (foldInit d il sp)).levels
          (foldRun d sF ic fc fcp csh d.length d.length
            (foldInit d il sp)).lineCurrent).header } n).num = _
    simp only [updFL]
    rw [if_pos hn]
  refine ⟨?_, ?_, ?_⟩
  · intro hj2
    exact hrun.1 j e1 e2 h1R hj2
  · intro hnone
    obtain ⟨hh, hl⟩ := hlastcase hnone
    rw [hh, hnum (e1.line + 1) hl]
  · intro hv
    cases hopt : (foldRun d sF ic fc fcp csh d.length d.length
        (foldInit d il sp)).emits[j + 1]? with
    | none =>
      obtain ⟨hh, -⟩ := hlastcase hopt
      rw [hh, hv]
      simp
    | some e2x =>
      obtain ⟨hh, -⟩ := hrun.1 j e1 e2x h1R hopt
      rw [hh, hv]
      simp

/-- Witness for C8 on the two-line document consisting of an opening
brace line and a closing brace line, all characters styled as
operators: the first line is a header, and the second line follows
the first. -/
theorem c8_witness :
    (foldBash [123, 10, 125, 10] (fun _ => SCE_SH_OPERATOR)
      (fun _ => false) false false false
      (fun _ => FoldLev.mk 0 false false) 0).emits[0]? =
        some ⟨0, ⟨0, false, true⟩, 1⟩ ∧
    ((⟨0, ⟨0, false, true⟩, 1⟩ : FoldEmit).lev.header =
        (decide ((⟨1, ⟨1, false, false⟩, 1⟩ : FoldEmit).lev.num >
            (⟨0, ⟨0, false, true⟩, 1⟩ : FoldEmit).lev.num) &&
         decide ((⟨0, ⟨0, false, true⟩, 1⟩ : FoldEmit).visible > 0)) ∧
      (⟨1, ⟨1, false, false⟩, 1⟩ : FoldEmit).line =
        (⟨0, ⟨0, false, true⟩, 1⟩ : FoldEmit).line + 1) :=
  ⟨by decide,
   (c8_fold_header [123, 10, 125, 10] (fun _ => SCE_SH_OPERATOR)
      (fun _ => false) false false false
      (fun _ => FoldLev.mk 0 false false) 0 0
      ⟨0, ⟨0, false, true⟩, 1⟩ ⟨1, ⟨1, false, false⟩, 1⟩
      (by decide)).1 (by decide)⟩

end LexBash
